import Mathlib

/-!
Verification development for the english_as_code (EAC) toolchain.

The development shallowly embeds the language frontend and the IR runtime of
the repository: the indentation-tracking lexer (src/eac/lexer.py), the
recursive-descent statement and expression productions (src/eac/parser.py),
the static name checker (src/eac/type_checker.py), the AST-to-IR lowering
(src/eac/lowering.py), the IR interpreter (src/eac/runtime/interpreter.py),
the tool registry (src/eac/runtime/tools/__init__.py) and the spreadsheet
sort helper (src/eac/runtime/tools/excel.py).

Modelling conventions, applied throughout:
- Python objects that flow through the IR and the runtime are modelled by the
  inductive type PyVal (none, booleans, integers, decimal fractions as exact
  rationals, strings, lists, string-keyed dictionaries).  Fractional literals
  are modelled by the exact decimal value they denote; no settled claim
  depends on binary floating point rounding.
- Fallible Python code is modelled with Except; a Python raise statement
  becomes an error value, and an out-of-range string index becomes the
  dedicated error LexErr.indexError.
- Mutable local state (position, line, column, indentation stack, symbol
  table, environment, trace) is threaded explicitly.  The scanning position
  of the lexer is kept as the remaining character suffix of the source, so
  every loop is structurally recursive and computes inside the kernel.
- Unbounded while loops are driven by an explicit fuel argument; running out
  of fuel is a dedicated error value, so an ok result always denotes a real
  terminating Python run.
- Source locations carried by AST nodes are dropped from the AST model: the
  repository uses them only to decorate diagnostics, and no settled claim
  mentions AST locations.  Token line and column numbers are kept, because
  lexer diagnostics are part of the claims.
-/

/-- Python single-quote character, used when rendering repr-style messages. -/
def pyQuote : Char := Char.ofNat 39

/-- Render a string the way Python repr renders a plain identifier-like
string: wrapped in single quotes.  The repository only ever formats keyword
and identifier text this way, so no escaping is needed on this domain. -/
def pyReprStr (s : String) : String :=
  pyQuote.toString ++ s ++ pyQuote.toString

/-- Model of the dynamically typed Python values that flow through tokens,
IR argument trees and the interpreter environment. -/
inductive PyVal where
  | none : PyVal
  | bool (b : Bool) : PyVal
  | int (n : Int) : PyVal
  | float (q : Rat) : PyVal
  | str (s : String) : PyVal
  | list (xs : List PyVal) : PyVal
  | dict (kvs : List (String × PyVal)) : PyVal

mutual

/-- Boolean equality on PyVal, modelling the Python == the repository uses
on the scalar token and argument values it compares. -/
def PyVal.beq : PyVal → PyVal → Bool
  | .none, .none => true
  | .bool a, .bool b => a == b
  | .int a, .int b => a == b
  | .float a, .float b => a == b
  | .str a, .str b => a == b
  | .list xs, .list ys => PyVal.beqList xs ys
  | .dict xs, .dict ys => PyVal.beqDict xs ys
  | _, _ => false

/-- Elementwise equality of PyVal lists. -/
def PyVal.beqList : List PyVal → List PyVal → Bool
  | [], [] => true
  | x :: xs, y :: ys => PyVal.beq x y && PyVal.beqList xs ys
  | _, _ => false

/-- Elementwise equality of dictionary entry lists. -/
def PyVal.beqDict : List (String × PyVal) → List (String × PyVal) → Bool
  | [], [] => true
  | (k1, v1) :: xs, (k2, v2) :: ys =>
    k1 == k2 && PyVal.beq v1 v2 && PyVal.beqDict xs ys
  | _, _ => false

end

/-- First-match lookup in an association list, the Python dict read on the
string-keyed dictionaries built by the repository (keys are unique there). -/
def alGet (kvs : List (String × PyVal)) (k : String) : Option PyVal :=
  match kvs with
  | [] => Option.none
  | (k0, v) :: rest => if k0 = k then Option.some v else alGet rest k

/-- Update or append a key, mirroring Python dict assignment, which keeps
the position of an existing key and appends a fresh key at the end. -/
def alSet (kvs : List (String × PyVal)) (k : String) (v : PyVal) :
    List (String × PyVal) :=
  match kvs with
  | [] => [(k, v)]
  | (k0, v0) :: rest =>
    if k0 = k then (k0, v) :: rest else (k0, v0) :: alSet rest k v

/-- Remove a key, mirroring Python dict.pop with a default. -/
def alPop (kvs : List (String × PyVal)) (k : String) : List (String × PyVal) :=
  match kvs with
  | [] => []
  | (k0, v0) :: rest => if k0 = k then rest else (k0, v0) :: alPop rest k

/-- Python d.get(k) on a dictionary value; anything else has no keys. -/
def PyVal.get (v : PyVal) (k : String) : Option PyVal :=
  match v with
  | .dict kvs => alGet kvs k
  | _ => Option.none

/-- Python d[k] = v on a dictionary value; other values are left unchanged
(the repository only assigns into values it just built as dictionaries). -/
def PyVal.set (v : PyVal) (k : String) (x : PyVal) : PyVal :=
  match v with
  | .dict kvs => .dict (alSet kvs k x)
  | other => other

/-! # Lexer (src/eac/lexer.py) -/

/-- Token kinds, one constructor per TokenKind constant. -/
inductive TokKind where
  | number | string | ident | keyword
  | dot | comma | colon | lparen | rparen
  | eq | gt | lt | gte | lte | ne
  | newline | indent | dedent | eof
deriving DecidableEq

/-- Render a token kind the way the TokenKind string constants spell it,
used verbatim inside parser diagnostics. -/
def TokKind.text : TokKind → String
  | .number => "NUMBER"
  | .string => "STRING"
  | .ident => "IDENT"
  | .keyword => "KEYWORD"
  | .dot => "DOT"
  | .comma => "COMMA"
  | .colon => "COLON"
  | .lparen => "LPAREN"
  | .rparen => "RPAREN"
  | .eq => "EQ"
  | .gt => "GT"
  | .lt => "LT"
  | .gte => "GTE"
  | .lte => "LTE"
  | .ne => "NE"
  | .newline => "NEWLINE"
  | .indent => "INDENT"
  | .dedent => "DEDENT"
  | .eof => "EOF"

/-- Token dataclass: kind, value, line, column. -/
structure Token where
  kind : TokKind
  value : PyVal
  line : Nat
  column : Nat

/-- The built-in fallback keyword set from load_keywords.  The repository
ships no grammar/keywords.yaml resource, so get_keywords always returns this
set. -/
def keywords : List String :=
  ["Open", "workbook", "In", "sheet", "treat", "range", "as", "table", "Set",
   "to", "Add", "column", "Filter", "where", "Export", "Use", "system",
   "version", "Log", "in", "out", "credential", "Go", "page", "Enter",
   "Click", "Extract", "from", "field", "element", "For", "each", "Call",
   "result", "date", "row"]

/-- Lexer failure: a ParseError with message, line and column, the
out-of-range string index access, or fuel exhaustion of the model. -/
inductive LexErr where
  | parseError (msg : String) (line column : Nat)
  | indexError
  | fuelOut
deriving DecidableEq

/-- Characters the lexer treats as intra-line whitespace. -/
def isSpaceTab (c : Char) : Bool := c = ' ' || c = '\t'

/-- ASCII decimal digit test, the str.isdigit call on the sources the
repository lexes (all examples are ASCII). -/
def isDigitCh (c : Char) : Bool := '0' ≤ c && c ≤ '9'

/-- ASCII letter test, the str.isalpha call on ASCII sources. -/
def isAlphaCh (c : Char) : Bool :=
  ('a' ≤ c && c ≤ 'z') || ('A' ≤ c && c ≤ 'Z')

/-- ASCII alphanumeric test, the str.isalnum call on ASCII sources. -/
def isAlnumCh (c : Char) : Bool := isAlphaCh c || isDigitCh c

/-- The space-skipping loop at the top of the tokenize while loop: consume
spaces and tabs from the remaining input, bumping the column once per
advance() call. -/
def skipSpaces : List Char → Nat → List Char × Nat
  | c :: rs, col =>
    if isSpaceTab c then skipSpaces rs (col + 1) else (c :: rs, col)
  | [], col => ([], col)

/-- The read_comment loop: skip to the line end, bumping the column. -/
def skipToNewline : List Char → Nat → List Char × Nat
  | c :: rs, col =>
    if c = '\n' then (c :: rs, col) else skipToNewline rs (col + 1)
  | [], col => ([], col)

/-- The indentation-measuring loop of tokenize: count a tab as four columns
and a space as one, consuming via advance() calls. -/
def countIndent : List Char → Nat → Nat → List Char × Nat × Nat
  | c :: rs, col, spaces =>
    if isSpaceTab c then
      countIndent rs (col + 1) (spaces + (if c = '\t' then 4 else 1))
    else (c :: rs, col, spaces)
  | [], col, spaces => ([], col, spaces)

/-- The string-literal scanning loop: collect characters up to the closing
double quote or the end of input; a backslash makes the lexer advance twice,
so both the backslash and the following character are kept in the value.
Line and column track each advance() (a consumed newline resets the
column). -/
def scanString : List Char → Nat → Nat → List Char →
    List Char × Nat × Nat × List Char
  | [], line, col, acc => ([], line, col, acc)
  | '"' :: rs, line, col, acc => ('"' :: rs, line, col, acc)
  | '\\' :: d :: rs, line, col, acc =>
    if d = '\n' then scanString rs (line + 1) 0 (acc ++ ['\\', d])
    else scanString rs line (col + 2) (acc ++ ['\\', d])
  | ['\\'], line, col, acc => ([], line, col + 1, acc ++ ['\\'])
  | c :: rs, line, col, acc =>
    if c = '\n' then scanString rs (line + 1) 0 (acc ++ [c])
    else scanString rs line (col + 1) (acc ++ [c])

/-- The number-scanning loop: digits with at most one interior decimal
point, where a dot is consumed only when a digit follows it.  Collects the
consumed characters (the num_str slice). -/
def scanNumber : List Char → Nat → Bool → List Char →
    List Char × Nat × List Char
  | [], col, _, acc => ([], col, acc)
  | ch :: rs, col, seenDot, acc =>
    if ch = '.' then
      if seenDot then (ch :: rs, col, acc)
      else
        match rs with
        | [] => (ch :: rs, col, acc)
        | nxt :: _ =>
          if isDigitCh nxt then scanNumber rs (col + 1) true (acc ++ [ch])
          else (ch :: rs, col, acc)
    else if isDigitCh ch then scanNumber rs (col + 1) seenDot (acc ++ [ch])
    else (ch :: rs, col, acc)

/-- The identifier-scanning loop: letters, digits and underscores,
collecting the word. -/
def scanIdent : List Char → Nat → List Char → List Char × Nat × List Char
  | [], col, acc => ([], col, acc)
  | c :: rs, col, acc =>
    if isAlnumCh c || c = '_' then scanIdent rs (col + 1) (acc ++ [c])
    else (c :: rs, col, acc)

/-- Value of a digit character. -/
def digitVal (c : Char) : Nat := c.toNat - 48

/-- Numeric value of a digit string, used to model int() and, with the
decimal point position, float() on the exact shapes the number scanner
produces (these conversions never fail on that shape). -/
def digitsToNat (ds : List Char) : Nat :=
  ds.foldl (fun acc c => acc * 10 + digitVal c) 0

/-- Model of the int() and float() conversion of num_str in tokenize: an
integer when no dot is present, otherwise the exact decimal fraction. -/
def numValue (ds : List Char) : PyVal :=
  if ds.contains '.' then
    let intPart := ds.takeWhile (fun c => c ≠ '.')
    let fracPart := (ds.dropWhile (fun c => c ≠ '.')).drop 1
    PyVal.float ((digitsToNat intPart : Rat) +
      (digitsToNat fracPart : Rat) / ((10 : Rat) ^ fracPart.length))
  else PyVal.int (digitsToNat ds)

/-- The final DEDENT flush after the main loop: one DEDENT per stack entry
above the base level. -/
def flushDedents (stack : List Nat) (line col : Nat) (acc : List Token) :
    List Token :=
  match stack with
  | [] => acc
  | [_] => acc
  | _ :: rest =>
    flushDedents rest line col (acc ++ [Token.mk TokKind.dedent PyVal.none line col])

/-- The DEDENT-popping loop of the indentation branch: pop every level
above the measured indentation, emitting one DEDENT per pop. -/
def dedentPops (spaces : Nat) (stack : List Nat) (line : Nat)
    (acc : List Token) : List Nat × List Token :=
  match stack with
  | [] => ([], acc)
  | top :: rest =>
    if spaces < top then
      dedentPops spaces rest line (acc ++ [Token.mk TokKind.dedent PyVal.none line 0])
    else (top :: rest, acc)

/-- Loop state of tokenize: remaining input, line, column, indentation
stack (top element first, matching the Python list read from its end), and
the emitted tokens so far. -/
structure LexState where
  rest : List Char
  line : Nat
  col : Nat
  stack : List Nat
  acc : List Token

/-- The branches of one tokenize loop pass after the newline and comment
tests: the indentation branch, punctuation and comparison operators, string
and number literals, identifiers and keywords, and the trailing
unexpected-character raise.  The current character c is the head of
c :: rs, the remaining input. -/
def tokRest (c : Char) (rs : List Char) (line col : Nat) (stack : List Nat)
    (acc : List Token) : Except LexErr LexState :=
  -- Indentation branch, embedded exactly as written: it demands column 0
  -- and a blank current character, although the space-skipping loop that
  -- runs before every pass has already consumed blanks.
  if col = 0 ∧ isSpaceTab c then
    let (rest1, col1, spaces) := countIndent (c :: rs) col 0
    if rest1.head? = Option.some '\n' then
      Except.ok (LexState.mk rest1 line col1 stack acc)
    else
      let (stack1, acc1) := dedentPops spaces stack line acc
      match stack1 with
      | top :: _ =>
        if spaces > top then
          Except.ok (LexState.mk rest1 line col1 (spaces :: stack1)
            (acc1 ++ [Token.mk TokKind.indent PyVal.none line 0]))
        else Except.ok (LexState.mk rest1 line col1 stack1 acc1)
      | [] => Except.ok (LexState.mk rest1 line col1 stack1 acc1)
  else if c = '.' then
    Except.ok (LexState.mk rs line (col + 1) stack
      (acc ++ [Token.mk TokKind.dot (PyVal.str ".") line col]))
  else if c = ',' then
    Except.ok (LexState.mk rs line (col + 1) stack
      (acc ++ [Token.mk TokKind.comma (PyVal.str ",") line col]))
  else if c = ':' then
    Except.ok (LexState.mk rs line (col + 1) stack
      (acc ++ [Token.mk TokKind.colon (PyVal.str ":") line col]))
  else if c = '(' then
    Except.ok (LexState.mk rs line (col + 1) stack
      (acc ++ [Token.mk TokKind.lparen (PyVal.str "(") line col]))
  else if c = ')' then
    Except.ok (LexState.mk rs line (col + 1) stack
      (acc ++ [Token.mk TokKind.rparen (PyVal.str ")") line col]))
  else if c = '=' then
    if rs.head? = Option.some '=' then
      Except.ok (LexState.mk (rs.drop 1) line (col + 2) stack
        (acc ++ [Token.mk TokKind.eq (PyVal.str "=") line (col + 2)]))
    else
      Except.ok (LexState.mk rs line (col + 1) stack
        (acc ++ [Token.mk TokKind.eq (PyVal.str "=") line col]))
  else if c = '>' ∧ rs.head? = Option.some '=' then
    Except.ok (LexState.mk (rs.drop 1) line (col + 2) stack
      (acc ++ [Token.mk TokKind.gte (PyVal.str ">=") line (col + 2)]))
  else if c = '>' then
    Except.ok (LexState.mk rs line (col + 1) stack
      (acc ++ [Token.mk TokKind.gt (PyVal.str ">") line col]))
  else if c = '<' ∧ rs.head? = Option.some '=' then
    Except.ok (LexState.mk (rs.drop 1) line (col + 2) stack
      (acc ++ [Token.mk TokKind.lte (PyVal.str "<=") line (col + 2)]))
  else if c = '<' then
    Except.ok (LexState.mk rs line (col + 1) stack
      (acc ++ [Token.mk TokKind.lt (PyVal.str "<") line col]))
  else if c = '!' ∧ rs.head? = Option.some '=' then
    Except.ok (LexState.mk (rs.drop 1) line (col + 2) stack
      (acc ++ [Token.mk TokKind.ne (PyVal.str "!=") line (col + 2)]))
  else if c = '"' then
    -- advance over the opening quote, scan, then consume the closing quote
    -- when input remains; the token records line and column after that.
    let (rest2, l2, c2, valChars) := scanString rs line (col + 1) []
    match rest2 with
    | _ :: rs3 =>
      Except.ok (LexState.mk rs3 l2 (c2 + 1) stack
        (acc ++ [Token.mk TokKind.string (PyVal.str (String.mk valChars)) l2 (c2 + 1)]))
    | [] =>
      Except.ok (LexState.mk [] l2 c2 stack
        (acc ++ [Token.mk TokKind.string (PyVal.str (String.mk valChars)) l2 c2]))
  else if isDigitCh c ∨ (c = '.' ∧ (rs.head?).any isDigitCh) then
    let (rest2, col2, ds) := scanNumber (c :: rs) col false []
    Except.ok (LexState.mk rest2 line col2 stack
      (acc ++ [Token.mk TokKind.number (numValue ds) line col2]))
  else if isAlphaCh c ∨ c = '_' then
    let (rest2, col2, wordChars) := scanIdent (c :: rs) col []
    let word := String.mk wordChars
    if keywords.contains word then
      Except.ok (LexState.mk rest2 line col2 stack
        (acc ++ [Token.mk TokKind.keyword (PyVal.str word) line col2]))
    else
      Except.ok (LexState.mk rest2 line col2 stack
        (acc ++ [Token.mk TokKind.ident (PyVal.str word) line col2]))
  else
    -- advance over the character (never a newline here), then raise.
    Except.error (LexErr.parseError
      ("Unexpected character: " ++ pyReprStr c.toString) line (col + 1))

/-- One pass of the body of the main tokenize while loop, after the space
skip: the newline branch, the comment branch (whose lookahead indexes one
past the current dash with no bounds check), then the remaining branches. -/
def tokStep (c : Char) (rs : List Char) (line col : Nat) (stack : List Nat)
    (acc : List Token) : Except LexErr LexState :=
  if c = '\n' then
    Except.ok (LexState.mk rs (line + 1) 0 stack
      (acc ++ [Token.mk TokKind.newline (PyVal.str "\n") line col]))
  else if c = '-' then
    -- peek() returns the current dash itself (the position was not
    -- advanced), and a one-character string is always truthy, so the
    -- conjunction proceeds to read source[i + 1] unconditionally.
    match rs with
    | [] => Except.error LexErr.indexError
    | c2 :: rs2 =>
      if c2 = '-' then
        -- two advance() calls over the dashes, then col -= 2, then
        -- read_comment; its trailing advance() is followed by one more
        -- line bump and column reset.
        let (rest2, col2) := skipToNewline rs2 (col + 2 - 2)
        match rest2 with
        | _ :: rs3 => Except.ok (LexState.mk rs3 (line + 1 + 1) 0 stack acc)
        | [] => Except.ok (LexState.mk [] line col2 stack acc)
      else
        tokRest c (c2 :: rs2) line col stack acc
  else
    tokRest c rs line col stack acc

/-- The main tokenize while loop, fuel-bounded: skip spaces, stop at the
end of input (flushing DEDENTs and emitting EOF), otherwise run one pass
of the loop body and continue from its state. -/
def tokLoop (fuel : Nat) (st : LexState) : Except LexErr (List Token) :=
  match fuel with
  | 0 => Except.error LexErr.fuelOut
  | fuel + 1 =>
    let (rest, col) := skipSpaces st.rest st.col
    match rest with
    | [] =>
      Except.ok ((flushDedents st.stack st.line col st.acc) ++
        [Token.mk TokKind.eof PyVal.none st.line col])
    | c :: rs =>
      match tokStep c rs st.line col st.stack st.acc with
      | Except.error e => Except.error e
      | Except.ok st2 => tokLoop fuel st2

/-- tokenize: produce the token list of an EAC source string.  The fuel is
one more than the source length; every loop pass consumes at least one
character, so the fuel never runs out on inputs the Python loop finishes. -/
def tokenize (source : String) : Except LexErr (List Token) :=
  tokLoop (source.data.length + 1) (LexState.mk source.data 1 0 [0] [])

/-! # AST (src/eac/ast_nodes.py) -/

/-- Comparison operators of the CompOp enum.  The member for the Python
keyword spelling is named inOp here. -/
inductive CompOp where
  | eq | ne | lt | le | gt | ge | contains | inOp
deriving DecidableEq

/-- Aggregation operators of the AggOp enum. -/
inductive AggOp where
  | sum | count | min | max
deriving DecidableEq

/-- A Python numeric literal value: int or float, as stored in
NumberLit.value. -/
inductive NumVal where
  | int (n : Int)
  | float (q : Rat)
deriving DecidableEq

/-- Expression nodes, one constructor per ast_nodes dataclass.  Note that
ast_nodes.py defines no NotExpr class, although type_checker.py names one. -/
inductive Expr where
  | numberLit (value : NumVal)
  | stringLit (value : String)
  | moneyLit (currency : String) (amount : Rat)
  | dateLit (value : String)
  | identifier (name : String)
  | qualifiedRef (base : String) (field : String)
  | binaryExpr (left : Expr) (op : String) (right : Expr)
  | comparison (left : Expr) (op : CompOp) (right : Expr)
  | functionCall (name : String) (args : List Expr)

/-- Statement nodes, one constructor per ast_nodes dataclass. -/
inductive Stmt where
  | openWorkbook (path : String)
  | treatRangeAsTable (sheet : String) (rangeSpec : String) (tableName : String)
  | setVar (name : String) (value : Expr)
  | addColumn (table : String) (name : String) (expr : Expr)
  | filterTable (table : String) (condition : Expr)
  | sortTable (table : String) (sortBy : Expr) (ascending : Bool)
  | groupTable (table : String) (groupBy : Expr)
      (aggregates : List (AggOp × Expr × String))
  | exportTable (source : Expr) (path : String)
  | callResult (name : String)
  | useSystem (name : String) (version : String)
  | logIn (credential : String)
  | logOut
  | goToPage (page : String)
  | enterField (fieldId : String) (value : Expr)
  | clickElement (elementId : String)
  | verifyCondition (condition : Expr)
  | extractField (varName : String) (selector : String)
  | forEach (var : String) (collection : Expr) (body : List Stmt)
  | ifElse (condition : Expr) (thenBody : List Stmt) (elseBody : List Stmt)
  | onError (action : String) (value : Option String)
  | comment (text : String)

/-- Program dataclass (the diagnostic source path is dropped). -/
structure Program where
  statements : List Stmt

/-! # Parser (src/eac/parser.py) -/

/-- String content of a token value; token values compared or stored by the
parser are always strings on this path. -/
def valStr (v : PyVal) : String :=
  match v with
  | .str s => s
  | _ => ""

/-- Python float() on a NUMBER token value. -/
def pyFloat (v : PyVal) : Rat :=
  match v with
  | .int n => (n : Rat)
  | .float q => q
  | _ => 0

/-- Numeric content of a NUMBER token value (the lexer stores int or
float values under that kind, so the fallthrough is unreachable). -/
def numOfPyVal (v : PyVal) : NumVal :=
  match v with
  | .int n => NumVal.int n
  | .float q => NumVal.float q
  | _ => NumVal.int 0

/-- The PyVal of a numeric literal value. -/
def pyOfNum (v : NumVal) : PyVal :=
  match v with
  | NumVal.int n => PyVal.int n
  | NumVal.float q => PyVal.float q

/-- Python repr of the token values that can appear inside parser
diagnostics (strings, numbers, None). -/
def pyReprVal (v : PyVal) : String :=
  match v with
  | .none => "None"
  | .bool b => if b then "True" else "False"
  | .int n => toString n
  | .float q => toString q
  | .str s => pyReprStr s
  | .list _ => "[...]"
  | .dict _ => "{...}"

/-- Default token used only when the token list is empty; tokenize output
always ends with EOF, so Parser.peek never actually reaches this. -/
def defaultTok : Token := Token.mk TokKind.eof PyVal.none 0 0

/-- Parser.peek: the token at pos, or the final token past the end. -/
def peekT (tks : List Token) (pos : Nat) : Token :=
  if pos < tks.length then tks.getD pos defaultTok
  else tks.getLastD defaultTok

/-- Parser.advance: return the peeked token and step the position while it
is still in range. -/
def advT (tks : List Token) (pos : Nat) : Token × Nat :=
  (peekT tks pos, if pos < tks.length then pos + 1 else pos)

/-- Parser.at: kind test plus optional exact value test. -/
def atT (tks : List Token) (pos : Nat) (kind : TokKind)
    (value : Option PyVal) : Bool :=
  let t := peekT tks pos
  if t.kind = kind then
    match value with
    | Option.none => true
    | Option.some v => PyVal.beq t.value v
  else false

/-- Parser.expect: advance and demand kind (and value when given), raising
a ParseError with the offending token location otherwise. -/
def expectT (tks : List Token) (pos : Nat) (kind : TokKind)
    (value : Option PyVal) : Except LexErr (Token × Nat) :=
  let (t, pos') := advT tks pos
  if t.kind ≠ kind then
    Except.error (LexErr.parseError
      ("Expected " ++ kind.text ++
        (match value with
         | Option.some v => " " ++ pyReprVal v
         | Option.none => "") ++
        ", got " ++ t.kind.text ++ " " ++ pyReprVal t.value)
      t.line t.column)
  else
    match value with
    | Option.some v =>
      if PyVal.beq t.value v then Except.ok (t, pos')
      else
        Except.error (LexErr.parseError
          ("Expected " ++ pyReprVal v ++ ", got " ++ pyReprVal t.value)
          t.line t.column)
    | Option.none => Except.ok (t, pos')

/-- Parser._skip_newlines. -/
def skipNewlines (tks : List Token) (fuel pos : Nat) : Nat :=
  match fuel with
  | 0 => pos
  | fuel + 1 =>
    if atT tks pos TokKind.newline Option.none then
      skipNewlines tks fuel (pos + 1)
    else pos

/-- Parser.parse_open_workbook. -/
def parseOpenWorkbook (tks : List Token) (pos : Nat) :
    Except LexErr (Stmt × Nat) := do
  let (_, pos) := advT tks pos
  let (_, pos) ← expectT tks pos TokKind.keyword (Option.some (PyVal.str "workbook"))
  let (pathT, pos) ← expectT tks pos TokKind.string Option.none
  let (_, pos) ← expectT tks pos TokKind.dot Option.none
  return (Stmt.openWorkbook (valStr pathT.value), pos)

/-- Parser.parse_treat_range_as_table. -/
def parseTreatRange (tks : List Token) (pos : Nat) :
    Except LexErr (Stmt × Nat) := do
  let (_, pos) := advT tks pos
  let (_, pos) ← expectT tks pos TokKind.keyword (Option.some (PyVal.str "sheet"))
  let (sheetT, pos) ← expectT tks pos TokKind.string Option.none
  let (_, pos) ← expectT tks pos TokKind.comma Option.none
  let (_, pos) ← expectT tks pos TokKind.keyword (Option.some (PyVal.str "treat"))
  let (_, pos) ← expectT tks pos TokKind.keyword (Option.some (PyVal.str "range"))
  let (rangeT, pos) ← expectT tks pos TokKind.ident Option.none
  let (_, pos) ← expectT tks pos TokKind.keyword (Option.some (PyVal.str "as"))
  let (_, pos) ← expectT tks pos TokKind.keyword (Option.some (PyVal.str "table"))
  let (nameT, pos) ← expectT tks pos TokKind.ident Option.none
  let (_, pos) ← expectT tks pos TokKind.dot Option.none
  return (Stmt.treatRangeAsTable (valStr sheetT.value) (valStr rangeT.value)
    (valStr nameT.value), pos)

/-- Parser.parse_call_result. -/
def parseCallResult (tks : List Token) (pos : Nat) :
    Except LexErr (Stmt × Nat) := do
  let (_, pos) := advT tks pos
  let (_, pos) ← expectT tks pos TokKind.keyword (Option.some (PyVal.str "result"))
  let (nameT, pos) ← expectT tks pos TokKind.ident Option.none
  let (_, pos) ← expectT tks pos TokKind.dot Option.none
  return (Stmt.callResult (valStr nameT.value), pos)

/-- Parser.parse_use_system. -/
def parseUseSystem (tks : List Token) (pos : Nat) :
    Except LexErr (Stmt × Nat) := do
  let (_, pos) := advT tks pos
  let (_, pos) ← expectT tks pos TokKind.keyword (Option.some (PyVal.str "system"))
  let (nameT, pos) ← expectT tks pos TokKind.string Option.none
  let (_, pos) ← expectT tks pos TokKind.keyword (Option.some (PyVal.str "version"))
  let (verT, pos) ← expectT tks pos TokKind.string Option.none
  let (_, pos) ← expectT tks pos TokKind.dot Option.none
  return (Stmt.useSystem (valStr nameT.value) (valStr verT.value), pos)

/-- Parser.parse_log_in_out. -/
def parseLogInOut (tks : List Token) (pos : Nat) :
    Except LexErr (Stmt × Nat) := do
  let (_, pos) := advT tks pos
  let (inOut, pos) ← expectT tks pos TokKind.keyword Option.none
  if valStr inOut.value = "out" then do
    let (_, pos) ← expectT tks pos TokKind.dot Option.none
    return (Stmt.logOut, pos)
  else do
    let (_, pos) ← expectT tks pos TokKind.keyword (Option.some (PyVal.str "as"))
    let (_, pos) ← expectT tks pos TokKind.keyword (Option.some (PyVal.str "credential"))
    let (credT, pos) ← expectT tks pos TokKind.string Option.none
    let (_, pos) ← expectT tks pos TokKind.dot Option.none
    return (Stmt.logIn (valStr credT.value), pos)

/-- Parser.parse_go_to_page. -/
def parseGoToPage (tks : List Token) (pos : Nat) :
    Except LexErr (Stmt × Nat) := do
  let (_, pos) := advT tks pos
  let (_, pos) ← expectT tks pos TokKind.keyword (Option.some (PyVal.str "to"))
  let (_, pos) ← expectT tks pos TokKind.keyword (Option.some (PyVal.str "page"))
  let (pageT, pos) ← expectT tks pos TokKind.string Option.none
  let (_, pos) ← expectT tks pos TokKind.dot Option.none
  return (Stmt.goToPage (valStr pageT.value), pos)

/-- Parser.parse_click. -/
def parseClick (tks : List Token) (pos : Nat) :
    Except LexErr (Stmt × Nat) := do
  let (_, pos) := advT tks pos
  let (elemT, pos) ← expectT tks pos TokKind.string Option.none
  let (_, pos) ← expectT tks pos TokKind.dot Option.none
  return (Stmt.clickElement (valStr elemT.value), pos)

/-- Parser.parse_extract. -/
def parseExtract (tks : List Token) (pos : Nat) :
    Except LexErr (Stmt × Nat) := do
  let (_, pos) := advT tks pos
  let (varT, pos) ← expectT tks pos TokKind.ident Option.none
  let (_, pos) ← expectT tks pos TokKind.keyword (Option.some (PyVal.str "from"))
  let (kindT, pos) := advT tks pos
  if valStr kindT.value = "field" ∨ valStr kindT.value = "element" then do
    let (selT, pos) ← expectT tks pos TokKind.string Option.none
    let (_, pos) ← expectT tks pos TokKind.dot Option.none
    return (Stmt.extractField (valStr varT.value) (valStr selT.value), pos)
  else
    Except.error (LexErr.parseError "Expected 'field' or 'element'"
      kindT.line kindT.column)

/-- The three currency spellings the money production recognizes. -/
def currencyWords : List String := ["USD", "EUR", "GBP"]

mutual

/-- Parser.parse_program: skip newlines, collect statements until EOF. -/
def parseProgram (tks : List Token) (fuel pos : Nat) :
    Except LexErr (List Stmt × Nat) :=
  match fuel with
  | 0 => Except.error LexErr.fuelOut
  | fuel + 1 =>
    if atT tks pos TokKind.eof Option.none then Except.ok ([], pos)
    else
      let pos := skipNewlines tks (tks.length + 1) pos
      if atT tks pos TokKind.eof Option.none then Except.ok ([], pos)
      else
        match parseStatement tks fuel pos with
        | Except.error e => Except.error e
        | Except.ok (stmt?, pos) =>
          match parseProgram tks fuel pos with
          | Except.error e => Except.error e
          | Except.ok (rest, pos) =>
            match stmt? with
            | Option.some s => Except.ok (s :: rest, pos)
            | Option.none => Except.ok (rest, pos)

/-- Parser.parse_statement: dispatch on the leading keyword; a lone newline
yields no statement; anything else raises the unexpected-token error. -/
def parseStatement (tks : List Token) (fuel pos : Nat) :
    Except LexErr (Option Stmt × Nat) :=
  match fuel with
  | 0 => Except.error LexErr.fuelOut
  | fuel + 1 =>
    if atT tks pos TokKind.eof Option.none then Except.ok (Option.none, pos)
    else
      let t := peekT tks pos
      let someOf : Except LexErr (Stmt × Nat) → Except LexErr (Option Stmt × Nat) :=
        fun r => match r with
          | Except.error e => Except.error e
          | Except.ok (s, p) => Except.ok (Option.some s, p)
      if atT tks pos TokKind.keyword (Option.some (PyVal.str "For")) then
        someOf (parseForEach tks fuel pos)
      else if atT tks pos TokKind.keyword (Option.some (PyVal.str "Open")) then
        someOf (parseOpenWorkbook tks pos)
      else if atT tks pos TokKind.keyword (Option.some (PyVal.str "In")) then
        someOf (parseTreatRange tks pos)
      else if atT tks pos TokKind.keyword (Option.some (PyVal.str "Set")) then
        someOf (parseSetVar tks fuel pos)
      else if atT tks pos TokKind.keyword (Option.some (PyVal.str "Call")) then
        someOf (parseCallResult tks pos)
      else if atT tks pos TokKind.keyword (Option.some (PyVal.str "Add")) then
        someOf (parseAddColumn tks fuel pos)
      else if atT tks pos TokKind.keyword (Option.some (PyVal.str "Filter")) then
        someOf (parseFilterTable tks fuel pos)
      else if atT tks pos TokKind.keyword (Option.some (PyVal.str "Export")) then
        someOf (parseExport tks fuel pos)
      else if atT tks pos TokKind.keyword (Option.some (PyVal.str "Use")) then
        someOf (parseUseSystem tks pos)
      else if atT tks pos TokKind.keyword (Option.some (PyVal.str "Log")) then
        someOf (parseLogInOut tks pos)
      else if atT tks pos TokKind.keyword (Option.some (PyVal.str "Go")) then
        someOf (parseGoToPage tks pos)
      else if atT tks pos TokKind.keyword (Option.some (PyVal.str "Enter")) then
        someOf (parseEnterField tks fuel pos)
      else if atT tks pos TokKind.keyword (Option.some (PyVal.str "Click")) then
        someOf (parseClick tks pos)
      else if atT tks pos TokKind.keyword (Option.some (PyVal.str "Extract")) then
        someOf (parseExtract tks pos)
      else if atT tks pos TokKind.newline Option.none then
        Except.ok (Option.none, pos + 1)
      else if atT tks pos TokKind.eof Option.none then
        Except.ok (Option.none, pos)
      else
        Except.error (LexErr.parseError
          ("Unexpected token: " ++ t.kind.text ++ " " ++ pyReprVal t.value ++
            ". Expected a statement.") t.line t.column)

/-- Parser.parse_for_each: loop variable (the row keyword or an IDENT),
collection expression, colon, then an INDENT-delimited body when an INDENT
token is present. -/
def parseForEach (tks : List Token) (fuel pos : Nat) :
    Except LexErr (Stmt × Nat) :=
  match fuel with
  | 0 => Except.error LexErr.fuelOut
  | fuel + 1 =>
    let (_, pos) := advT tks pos
    match expectT tks pos TokKind.keyword (Option.some (PyVal.str "each")) with
    | Except.error e => Except.error e
    | Except.ok (_, pos) =>
      let varStep : Except LexErr (String × Nat) :=
        if atT tks pos TokKind.keyword (Option.some (PyVal.str "row")) then
          Except.ok ("row", pos + 1)
        else
          match expectT tks pos TokKind.ident Option.none with
          | Except.error e => Except.error e
          | Except.ok (t, p) => Except.ok (valStr t.value, p)
      match varStep with
      | Except.error e => Except.error e
      | Except.ok (var, pos) =>
        match expectT tks pos TokKind.keyword (Option.some (PyVal.str "in")) with
        | Except.error e => Except.error e
        | Except.ok (_, pos) =>
          match parseExpression tks fuel pos with
          | Except.error e => Except.error e
          | Except.ok (collection, pos) =>
            match expectT tks pos TokKind.colon Option.none with
            | Except.error e => Except.error e
            | Except.ok (_, pos) =>
              let pos := skipNewlines tks (tks.length + 1) pos
              if atT tks pos TokKind.indent Option.none then
                match parseForBody tks fuel (pos + 1) with
                | Except.error e => Except.error e
                | Except.ok (body, pos) =>
                  let pos :=
                    if atT tks pos TokKind.dedent Option.none then pos + 1 else pos
                  Except.ok (Stmt.forEach var collection body, pos)
              else
                Except.ok (Stmt.forEach var collection [], pos)

/-- The body-collecting loop of parse_for_each: parse statements until a
DEDENT or EOF, skipping newlines after each one. -/
def parseForBody (tks : List Token) (fuel pos : Nat) :
    Except LexErr (List Stmt × Nat) :=
  match fuel with
  | 0 => Except.error LexErr.fuelOut
  | fuel + 1 =>
    if atT tks pos TokKind.dedent Option.none ∨ atT tks pos TokKind.eof Option.none then
      Except.ok ([], pos)
    else
      match parseStatement tks fuel pos with
      | Except.error e => Except.error e
      | Except.ok (stmt?, pos) =>
        let pos := skipNewlines tks (tks.length + 1) pos
        match parseForBody tks fuel pos with
        | Except.error e => Except.error e
        | Except.ok (rest, pos) =>
          match stmt? with
          | Option.some s => Except.ok (s :: rest, pos)
          | Option.none => Except.ok (rest, pos)

/-- Parser.parse_set_var. -/
def parseSetVar (tks : List Token) (fuel pos : Nat) :
    Except LexErr (Stmt × Nat) :=
  match fuel with
  | 0 => Except.error LexErr.fuelOut
  | fuel + 1 =>
    let (_, pos) := advT tks pos
    match expectT tks pos TokKind.ident Option.none with
    | Except.error e => Except.error e
    | Except.ok (nameT, pos) =>
      match expectT tks pos TokKind.keyword (Option.some (PyVal.str "to")) with
      | Except.error e => Except.error e
      | Except.ok (_, pos) =>
        match parseExpression tks fuel pos with
        | Except.error e => Except.error e
        | Except.ok (value, pos) =>
          match expectT tks pos TokKind.dot Option.none with
          | Except.error e => Except.error e
          | Except.ok (_, pos) =>
            Except.ok (Stmt.setVar (valStr nameT.value) value, pos)

/-- Parser.parse_add_column. -/
def parseAddColumn (tks : List Token) (fuel pos : Nat) :
    Except LexErr (Stmt × Nat) :=
  match fuel with
  | 0 => Except.error LexErr.fuelOut
  | fuel + 1 =>
    let (_, pos) := advT tks pos
    match expectT tks pos TokKind.keyword (Option.some (PyVal.str "column")) with
    | Except.error e => Except.error e
    | Except.ok (_, pos) =>
      match expectT tks pos TokKind.ident Option.none with
      | Except.error e => Except.error e
      | Except.ok (nameT, pos) =>
        match expectT tks pos TokKind.keyword (Option.some (PyVal.str "to")) with
        | Except.error e => Except.error e
        | Except.ok (_, pos) =>
          match expectT tks pos TokKind.ident Option.none with
          | Except.error e => Except.error e
          | Except.ok (tableT, pos) =>
            match expectT tks pos TokKind.keyword (Option.some (PyVal.str "as")) with
            | Except.error e => Except.error e
            | Except.ok (_, pos) =>
              match parseExpression tks fuel pos with
              | Except.error e => Except.error e
              | Except.ok (expr, pos) =>
                match expectT tks pos TokKind.dot Option.none with
                | Except.error e => Except.error e
                | Except.ok (_, pos) =>
                  Except.ok (Stmt.addColumn (valStr tableT.value)
                    (valStr nameT.value) expr, pos)

/-- Parser.parse_filter_table. -/
def parseFilterTable (tks : List Token) (fuel pos : Nat) :
    Except LexErr (Stmt × Nat) :=
  match fuel with
  | 0 => Except.error LexErr.fuelOut
  | fuel + 1 =>
    let (_, pos) := advT tks pos
    match expectT tks pos TokKind.ident Option.none with
    | Except.error e => Except.error e
    | Except.ok (tableT, pos) =>
      match expectT tks pos TokKind.keyword (Option.some (PyVal.str "where")) with
      | Except.error e => Except.error e
      | Except.ok (_, pos) =>
        match parseExpression tks fuel pos with
        | Except.error e => Except.error e
        | Except.ok (condition, pos) =>
          match expectT tks pos TokKind.dot Option.none with
          | Except.error e => Except.error e
          | Except.ok (_, pos) =>
            Except.ok (Stmt.filterTable (valStr tableT.value) condition, pos)

/-- Parser.parse_export. -/
def parseExport (tks : List Token) (fuel pos : Nat) :
    Except LexErr (Stmt × Nat) :=
  match fuel with
  | 0 => Except.error LexErr.fuelOut
  | fuel + 1 =>
    let (_, pos) := advT tks pos
    match parseExpression tks fuel pos with
    | Except.error e => Except.error e
    | Except.ok (source, pos) =>
      match expectT tks pos TokKind.keyword (Option.some (PyVal.str "to")) with
      | Except.error e => Except.error e
      | Except.ok (_, pos) =>
        match expectT tks pos TokKind.string Option.none with
        | Except.error e => Except.error e
        | Except.ok (pathT, pos) =>
          match expectT tks pos TokKind.dot Option.none with
          | Except.error e => Except.error e
          | Except.ok (_, pos) =>
            Except.ok (Stmt.exportTable source (valStr pathT.value), pos)

/-- Parser.parse_enter_field. -/
def parseEnterField (tks : List Token) (fuel pos : Nat) :
    Except LexErr (Stmt × Nat) :=
  match fuel with
  | 0 => Except.error LexErr.fuelOut
  | fuel + 1 =>
    let (_, pos) := advT tks pos
    match expectT tks pos TokKind.string Option.none with
    | Except.error e => Except.error e
    | Except.ok (fieldT, pos) =>
      match expectT tks pos TokKind.eq Option.none with
      | Except.error e => Except.error e
      | Except.ok (_, pos) =>
        match parseExpression tks fuel pos with
        | Except.error e => Except.error e
        | Except.ok (value, pos) =>
          match expectT tks pos TokKind.dot Option.none with
          | Except.error e => Except.error e
          | Except.ok (_, pos) =>
            Except.ok (Stmt.enterField (valStr fieldT.value) value, pos)

/-- Parser.parse_expression. -/
def parseExpression (tks : List Token) (fuel pos : Nat) :
    Except LexErr (Expr × Nat) :=
  match fuel with
  | 0 => Except.error LexErr.fuelOut
  | fuel + 1 => parseOr tks fuel pos

/-- Parser.parse_or: left-associative chain over the or keyword. -/
def parseOr (tks : List Token) (fuel pos : Nat) :
    Except LexErr (Expr × Nat) :=
  match fuel with
  | 0 => Except.error LexErr.fuelOut
  | fuel + 1 =>
    match parseAnd tks fuel pos with
    | Except.error e => Except.error e
    | Except.ok (left, pos) => parseOrLoop tks fuel left pos

/-- The while loop of parse_or. -/
def parseOrLoop (tks : List Token) (fuel : Nat) (left : Expr) (pos : Nat) :
    Except LexErr (Expr × Nat) :=
  match fuel with
  | 0 => Except.error LexErr.fuelOut
  | fuel + 1 =>
    if atT tks pos TokKind.keyword (Option.some (PyVal.str "or")) then
      match parseAnd tks fuel (pos + 1) with
      | Except.error e => Except.error e
      | Except.ok (right, pos) =>
        parseOrLoop tks fuel (Expr.binaryExpr left "or" right) pos
    else Except.ok (left, pos)

/-- Parser.parse_and: left-associative chain over the and keyword. -/
def parseAnd (tks : List Token) (fuel pos : Nat) :
    Except LexErr (Expr × Nat) :=
  match fuel with
  | 0 => Except.error LexErr.fuelOut
  | fuel + 1 =>
    match parseCompare tks fuel pos with
    | Except.error e => Except.error e
    | Except.ok (left, pos) => parseAndLoop tks fuel left pos

/-- The while loop of parse_and. -/
def parseAndLoop (tks : List Token) (fuel : Nat) (left : Expr) (pos : Nat) :
    Except LexErr (Expr × Nat) :=
  match fuel with
  | 0 => Except.error LexErr.fuelOut
  | fuel + 1 =>
    if atT tks pos TokKind.keyword (Option.some (PyVal.str "and")) then
      match parseCompare tks fuel (pos + 1) with
      | Except.error e => Except.error e
      | Except.ok (right, pos) =>
        parseAndLoop tks fuel (Expr.binaryExpr left "and" right) pos
    else Except.ok (left, pos)

/-- Parser.parse_compare: one optional comparison, non-associative. -/
def parseCompare (tks : List Token) (fuel pos : Nat) :
    Except LexErr (Expr × Nat) :=
  match fuel with
  | 0 => Except.error LexErr.fuelOut
  | fuel + 1 =>
    match parseAdditive tks fuel pos with
    | Except.error e => Except.error e
    | Except.ok (left, pos) =>
      let op? : Option (CompOp × Nat) :=
        if atT tks pos TokKind.eq Option.none then Option.some (CompOp.eq, pos + 1)
        else if atT tks pos TokKind.gt Option.none then Option.some (CompOp.gt, pos + 1)
        else if atT tks pos TokKind.gte Option.none then Option.some (CompOp.ge, pos + 1)
        else if atT tks pos TokKind.lt Option.none then Option.some (CompOp.lt, pos + 1)
        else if atT tks pos TokKind.lte Option.none then Option.some (CompOp.le, pos + 1)
        else if atT tks pos TokKind.ne Option.none then Option.some (CompOp.ne, pos + 1)
        else Option.none
      match op? with
      | Option.some (op, pos) =>
        match parseAdditive tks fuel pos with
        | Except.error e => Except.error e
        | Except.ok (right, pos) =>
          Except.ok (Expr.comparison left op right, pos)
      | Option.none => Except.ok (left, pos)

/-- Parser.parse_additive: the plus and minus loop never runs (the lexer
emits no such keyword tokens and the loop body breaks at once), so this is
parse_term. -/
def parseAdditive (tks : List Token) (fuel pos : Nat) :
    Except LexErr (Expr × Nat) :=
  match fuel with
  | 0 => Except.error LexErr.fuelOut
  | fuel + 1 => parseTerm tks fuel pos

/-- Parser.parse_term. -/
def parseTerm (tks : List Token) (fuel pos : Nat) :
    Except LexErr (Expr × Nat) :=
  match fuel with
  | 0 => Except.error LexErr.fuelOut
  | fuel + 1 => parsePrimary tks fuel pos

/-- Parser.parse_primary: literals, the row qualified reference, money,
date, identifiers with optional qualified field, and parentheses. -/
def parsePrimary (tks : List Token) (fuel pos : Nat) :
    Except LexErr (Expr × Nat) :=
  match fuel with
  | 0 => Except.error LexErr.fuelOut
  | fuel + 1 =>
    let t := peekT tks pos
    if atT tks pos TokKind.number Option.none then
      Except.ok (Expr.numberLit (numOfPyVal t.value), pos + 1)
    else if atT tks pos TokKind.string Option.none then
      Except.ok (Expr.stringLit (valStr t.value), pos + 1)
    else if atT tks pos TokKind.keyword (Option.some (PyVal.str "row")) ∧
        pos + 2 < tks.length ∧
        (peekT tks (pos + 1)).kind = TokKind.dot ∧
        (peekT tks (pos + 2)).kind = TokKind.ident then
      match expectT tks (pos + 2) TokKind.ident Option.none with
      | Except.error e => Except.error e
      | Except.ok (fieldT, pos) =>
        Except.ok (Expr.qualifiedRef "row" (valStr fieldT.value), pos)
    else if (atT tks pos TokKind.keyword Option.none ∨
        atT tks pos TokKind.ident Option.none) ∧
        currencyWords.contains (valStr t.value) ∧
        pos + 1 < tks.length ∧
        (peekT tks (pos + 1)).kind = TokKind.number then
      match expectT tks (pos + 1) TokKind.number Option.none with
      | Except.error e => Except.error e
      | Except.ok (amountT, pos) =>
        Except.ok (Expr.moneyLit (valStr t.value) (pyFloat amountT.value), pos)
    else if atT tks pos TokKind.keyword (Option.some (PyVal.str "date")) then
      match expectT tks (pos + 1) TokKind.string Option.none with
      | Except.error e => Except.error e
      | Except.ok (dateT, pos) =>
        Except.ok (Expr.dateLit (valStr dateT.value), pos)
    else if atT tks pos TokKind.ident Option.none then
      let pos := pos + 1
      if atT tks pos TokKind.dot Option.none ∧ pos + 1 < tks.length ∧
          (peekT tks (pos + 1)).kind = TokKind.ident then
        match expectT tks (pos + 1) TokKind.ident Option.none with
        | Except.error e => Except.error e
        | Except.ok (fieldT, pos) =>
          Except.ok (Expr.qualifiedRef (valStr t.value) (valStr fieldT.value), pos)
      else
        Except.ok (Expr.identifier (valStr t.value), pos)
    else if atT tks pos TokKind.lparen Option.none then
      match parseExpression tks fuel (pos + 1) with
      | Except.error e => Except.error e
      | Except.ok (expr, pos) =>
        match expectT tks pos TokKind.rparen Option.none with
        | Except.error e => Except.error e
        | Except.ok (_, pos) => Except.ok (expr, pos)
    else
      Except.error (LexErr.parseError
        ("Expected expression, got " ++ t.kind.text ++ " " ++ pyReprVal t.value)
        t.line t.column)

end

/-- parse: tokenize then run the parser on the token list. -/
def parse (source : String) : Except LexErr Program :=
  match tokenize source with
  | Except.error e => Except.error e
  | Except.ok tks =>
    match parseProgram tks (tks.length * 20 + 100) 0 with
    | Except.error e => Except.error e
    | Except.ok (stmts, _) => Except.ok (Program.mk stmts)

/-! # Static checker (src/eac/type_checker.py)

The Python module imports a NotExpr name that ast_nodes.py does not define,
so its NotExpr branch can match nothing; the branch is omitted here.  The
checker keeps one top-level symbols dictionary; the nested ensure_declared
closure always reads that top-level dictionary, while statement checking
writes into the symbols_here dictionary it was handed (a fresh copy inside
a ForEach body).  Both dictionaries are threaded explicitly, and the
diagnostic location carried by TypeCheckError is dropped with the AST
locations. -/

/-- TypeCheckError, reduced to its message. -/
inductive TCErr where
  | typeCheckError (msg : String)
deriving DecidableEq

/-- Symbol table: name to kind tag, in insertion order. -/
def SymTab := List (String × String)

/-- Membership test of the Python `name not in symbols` check. -/
def symMem (tab : List (String × String)) (k : String) : Bool :=
  match tab with
  | [] => false
  | (k0, _) :: rest => if k0 = k then true else symMem rest k

/-- Python symbols_here[name] = kind: replace in place or append. -/
def symIns (tab : List (String × String)) (k v : String) :
    List (String × String) :=
  match tab with
  | [] => [(k, v)]
  | (k0, v0) :: rest =>
    if k0 = k then (k0, v) :: rest else (k0, v0) :: symIns rest k v

/-- ensure_declared: consult the top-level symbols dictionary (the closure
reads check-local symbols, never the scope handed to check_expr). -/
def ensureDeclared (topLevel : List (String × String)) (name : String) :
    Except TCErr Unit :=
  if symMem topLevel name then Except.ok ()
  else
    Except.error (TCErr.typeCheckError
      (pyReprStr name ++
        " is not defined. Use a table or variable that was declared earlier."))

/-- check_expr: identifiers demand declaration unless allowed, qualified
references with a base other than row demand a declared base, comparisons
and binary expressions recurse; the symbols_here argument is carried along
exactly as in the source, where only ensure_declared reads names (from the
top level). -/
def checkExpr (e : Expr) (symbolsHere topLevel : List (String × String))
    (allowUndeclared : Bool) : Except TCErr Unit :=
  match e with
  | .identifier name =>
    if allowUndeclared then Except.ok () else ensureDeclared topLevel name
  | .qualifiedRef base _ =>
    if base ≠ "row" then ensureDeclared topLevel base else Except.ok ()
  | .comparison left _ right =>
    match checkExpr left symbolsHere topLevel allowUndeclared with
    | Except.error e => Except.error e
    | Except.ok _ => checkExpr right symbolsHere topLevel allowUndeclared
  | .binaryExpr left _ right =>
    match checkExpr left symbolsHere topLevel allowUndeclared with
    | Except.error e => Except.error e
    | Except.ok _ => checkExpr right symbolsHere topLevel allowUndeclared
  | _ => Except.ok ()

mutual

/-- check_statement: returns the updated symbols_here dictionary.  The
topLevel argument is the dictionary the ensure_declared closure reads; at
the top level of check the two coincide, inside a ForEach body the
symbols_here copy diverges from it. -/
def checkStatement (s : Stmt) (symbolsHere topLevel : List (String × String)) :
    Except TCErr (List (String × String)) :=
  match s with
  | .treatRangeAsTable _ _ tableName =>
    Except.ok (symIns symbolsHere tableName "table")
  | .setVar name value =>
    match checkExpr value symbolsHere topLevel false with
    | Except.error e => Except.error e
    | Except.ok _ => Except.ok (symIns symbolsHere name "any")
  | .addColumn table _ expr =>
    match ensureDeclared topLevel table with
    | Except.error e => Except.error e
    | Except.ok _ =>
      match checkExpr expr symbolsHere topLevel false with
      | Except.error e => Except.error e
      | Except.ok _ => Except.ok symbolsHere
  | .filterTable table condition =>
    match ensureDeclared topLevel table with
    | Except.error e => Except.error e
    | Except.ok _ =>
      match checkExpr condition symbolsHere topLevel true with
      | Except.error e => Except.error e
      | Except.ok _ => Except.ok symbolsHere
  | .sortTable table sortBy _ =>
    match ensureDeclared topLevel table with
    | Except.error e => Except.error e
    | Except.ok _ =>
      match checkExpr sortBy symbolsHere topLevel false with
      | Except.error e => Except.error e
      | Except.ok _ => Except.ok symbolsHere
  | .exportTable source _ =>
    match checkExpr source symbolsHere topLevel false with
    | Except.error e => Except.error e
    | Except.ok _ => Except.ok symbolsHere
  | .forEach var collection body =>
    match checkExpr collection symbolsHere topLevel false with
    | Except.error e => Except.error e
    | Except.ok _ =>
      match checkBody body (symIns symbolsHere var "row") topLevel with
      | Except.error e => Except.error e
      | Except.ok _ => Except.ok symbolsHere
  | .enterField _ value =>
    -- fallthrough: the statement has an Expr-valued value attribute
    match checkExpr value symbolsHere topLevel false with
    | Except.error e => Except.error e
    | Except.ok _ => Except.ok symbolsHere
  | .verifyCondition condition =>
    -- fallthrough: the statement has an Expr-valued condition attribute
    match checkExpr condition symbolsHere topLevel false with
    | Except.error e => Except.error e
    | Except.ok _ => Except.ok symbolsHere
  | .ifElse condition _ _ =>
    -- fallthrough: only the condition attribute is checked, not the bodies
    match checkExpr condition symbolsHere topLevel false with
    | Except.error e => Except.error e
    | Except.ok _ => Except.ok symbolsHere
  | _ => Except.ok symbolsHere

/-- The body loop of the ForEach branch, threading the body_symbols copy. -/
def checkBody (body : List Stmt) (bodySymbols topLevel : List (String × String)) :
    Except TCErr (List (String × String)) :=
  match body with
  | [] => Except.ok bodySymbols
  | s :: rest =>
    match checkStatement s bodySymbols topLevel with
    | Except.error e => Except.error e
    | Except.ok bodySymbols => checkBody rest bodySymbols topLevel

end

/-- The top-level loop of check: each statement reads and writes the one
check-local symbols dictionary. -/
def checkProgramFrom (stmts : List Stmt) (symbols : List (String × String)) :
    Except TCErr Unit :=
  match stmts with
  | [] => Except.ok ()
  | s :: rest =>
    match checkStatement s symbols symbols with
    | Except.error e => Except.error e
    | Except.ok symbols => checkProgramFrom rest symbols

/-- check: walk the program with an initially empty symbol table. -/
def check (p : Program) : Except TCErr Unit :=
  checkProgramFrom p.statements []

/-! # IR and lowering (src/eac/ir.py, src/eac/lowering.py) -/

/-- IRStep dataclass. -/
structure IRStep where
  id : String
  op : String
  args : PyVal
  result : Option String := Option.none
  result_type : Option String := Option.none

/-- IRProgram dataclass with its defaults. -/
structure IRProgram where
  version : String := "0.1.0"
  steps : List IRStep := []
  error_policy : PyVal := PyVal.dict [("default", PyVal.str "stop")]
  permissions : List String := []

/-- Decimal digit characters, matched on the ten possible digit values. -/
def digitChar (d : Nat) : Char :=
  match d with
  | 0 => '0' | 1 => '1' | 2 => '2' | 3 => '3' | 4 => '4'
  | 5 => '5' | 6 => '6' | 7 => '7' | 8 => '8' | 9 => '9'
  | _ => '*'

/-- Decimal digit list of a natural number, fuel-driven so it computes by
kernel reduction; the fuel n + 1 always suffices. -/
def natDigitsAux (fuel n : Nat) : List Char :=
  match fuel with
  | 0 => []
  | fuel + 1 =>
    if n < 10 then [digitChar n]
    else natDigitsAux fuel (n / 10) ++ [digitChar (n % 10)]

/-- Decimal digit list of a natural number. -/
def natDigits (n : Nat) : List Char := natDigitsAux (n + 1) n

/-- The id formatting step_%03d of lowering: the decimal value zero-padded
to width three after the step_ marker. -/
def stepId (n : Nat) : String :=
  "step_" ++ String.mk (List.replicate (3 - (natDigits n).length) '0' ++ natDigits n)

/-- _expr_to_arg: serialize an AST expression into the IR argument tree.
Only the six literal and reference shapes are handled; every other node,
including Comparison and BinaryExpr, becomes the unknown marker. -/
def exprToArg (e : Expr) : PyVal :=
  match e with
  | .numberLit value =>
    PyVal.dict [("type", PyVal.str "number"), ("value", pyOfNum value)]
  | .stringLit value =>
    PyVal.dict [("type", PyVal.str "string"), ("value", PyVal.str value)]
  | .moneyLit currency amount =>
    PyVal.dict [("type", PyVal.str "money"), ("currency", PyVal.str currency),
      ("amount", PyVal.float amount)]
  | .dateLit value =>
    PyVal.dict [("type", PyVal.str "date"), ("value", PyVal.str value)]
  | .identifier name => PyVal.dict [("type", PyVal.str "ref"), ("name", PyVal.str name)]
  | .qualifiedRef base field =>
    PyVal.dict [("type", PyVal.str "qualified"), ("base", PyVal.str base),
      ("field", PyVal.str field)]
  | _ => PyVal.dict [("type", PyVal.str "unknown")]

/-- Render an optional result name as the JSON value lowering stores for
nested body steps. -/
def optStr (s : Option String) : PyVal :=
  match s with
  | Option.some s => PyVal.str s
  | Option.none => PyVal.none

mutual

/-- _stmt_to_step: map one statement to an IR step (none for statements the
lowering does not handle, among them SortTable).  The counter value equals
the index at every call site; the returned counter reflects the increments
body steps of a ForEach performed on the shared counter list. -/
def stmtToStep (s : Stmt) (index ctr : Nat) : Option IRStep × Nat :=
  match s with
  | .openWorkbook path =>
    (Option.some (IRStep.mk (stepId index) "excel.open_workbook"
      (PyVal.dict [("path", PyVal.str path)]) Option.none Option.none), ctr)
  | .treatRangeAsTable sheet rangeSpec tableName =>
    (Option.some (IRStep.mk (stepId index) "excel.read_table"
      (PyVal.dict [("sheet", PyVal.str sheet), ("range", PyVal.str rangeSpec)])
      (Option.some tableName) (Option.some "table")), ctr)
  | .setVar name value =>
    (Option.some (IRStep.mk (stepId index) "set_var"
      (PyVal.dict [("name", PyVal.str name), ("value", exprToArg value)])
      (Option.some name) Option.none), ctr)
  | .addColumn table name expr =>
    (Option.some (IRStep.mk (stepId index) "table.add_column"
      (PyVal.dict [("table", PyVal.str table), ("name", PyVal.str name),
        ("expr", exprToArg expr)])
      (Option.some table) (Option.some "table")), ctr)
  | .filterTable table condition =>
    (Option.some (IRStep.mk (stepId index) "table.filter"
      (PyVal.dict [("table", PyVal.str table), ("condition", exprToArg condition)])
      (Option.some table) (Option.some "table")), ctr)
  | .exportTable source path =>
    (Option.some (IRStep.mk (stepId index) "excel.export"
      (PyVal.dict [("source", exprToArg source), ("path", PyVal.str path)])
      Option.none Option.none), ctr)
  | .callResult name =>
    (Option.some (IRStep.mk (stepId index) "call_result"
      (PyVal.dict [("name", PyVal.str name)]) (Option.some name) Option.none), ctr)
  | .useSystem name version =>
    (Option.some (IRStep.mk (stepId index) "web.use_system"
      (PyVal.dict [("name", PyVal.str name), ("version", PyVal.str version)])
      Option.none Option.none), ctr)
  | .logIn credential =>
    (Option.some (IRStep.mk (stepId index) "web.login"
      (PyVal.dict [("credential", PyVal.str credential)]) Option.none Option.none), ctr)
  | .logOut =>
    (Option.some (IRStep.mk (stepId index) "web.logout" (PyVal.dict [])
      Option.none Option.none), ctr)
  | .goToPage page =>
    (Option.some (IRStep.mk (stepId index) "web.goto_page"
      (PyVal.dict [("page", PyVal.str page)]) Option.none Option.none), ctr)
  | .enterField fieldId value =>
    (Option.some (IRStep.mk (stepId index) "web.enter"
      (PyVal.dict [("field", PyVal.str fieldId), ("value", exprToArg value)])
      Option.none Option.none), ctr)
  | .clickElement elementId =>
    (Option.some (IRStep.mk (stepId index) "web.click"
      (PyVal.dict [("element", PyVal.str elementId)]) Option.none Option.none), ctr)
  | .extractField varName selector =>
    (Option.some (IRStep.mk (stepId index) "web.extract"
      (PyVal.dict [("selector", PyVal.str selector)])
      (Option.some varName) Option.none), ctr)
  | .forEach var collection body =>
    let (bodySteps, ctr2) := bodyToSteps body ctr
    (Option.some (IRStep.mk (stepId index) "control.for_each"
      (PyVal.dict [("var", PyVal.str var), ("collection", exprToArg collection),
        ("body", PyVal.list bodySteps)])
      Option.none Option.none), ctr2)
  | _ => (Option.none, ctr)

/-- The body loop of the ForEach branch of _stmt_to_step: bump the shared
counter, lower the statement, and record the produced step as the
dictionary shape the interpreter consumes. -/
def bodyToSteps (body : List Stmt) (ctr : Nat) : List PyVal × Nat :=
  match body with
  | [] => ([], ctr)
  | s :: rest =>
    let (sub?, ctr2) := stmtToStep s (ctr + 1) (ctr + 1)
    match sub? with
    | Option.some sub =>
      let (tail, ctr3) := bodyToSteps rest ctr2
      (PyVal.dict [("id", PyVal.str sub.id), ("op", PyVal.str sub.op),
        ("args", sub.args), ("result", optStr sub.result),
        ("type", optStr sub.result_type)] :: tail, ctr3)
    | Option.none =>
      bodyToSteps rest ctr2

end

/-- The add_steps loop of lower: bump the shared index before each
statement and append the produced steps in order. -/
def lowerSteps (stmts : List Stmt) (idx : Nat) : List IRStep × Nat :=
  match stmts with
  | [] => ([], idx)
  | s :: rest =>
    let (step?, idx2) := stmtToStep s (idx + 1) (idx + 1)
    let (tail, idx3) := lowerSteps rest idx2
    match step? with
    | Option.some step => (step :: tail, idx3)
    | Option.none => (tail, idx3)

/-- lower: produce the IR program of an AST program. -/
def lower (p : Program) : IRProgram :=
  IRProgram.mk "0.1.0" (lowerSteps p.statements 0).1
    (PyVal.dict [("default", PyVal.str "stop")]) []

/-! # Interpreter (src/eac/runtime/interpreter.py) and tool registry
(src/eac/runtime/tools/__init__.py)

The registry entries for the three excel operations perform file and
workbook input/output; they are taken as abstract handler parameters.  The
web handlers are pure in the source (each returns None, web.extract returns
the empty string) and are embedded directly, as are the lambda entries of
the TOOLS dictionary.  The trace_path file sink of run is dropped (claims
touch only the returned trace). -/

/-- A tool handler: resolved keyword arguments in, return value out. -/
def Handler := PyVal → PyVal

/-- RuntimeError raised by the interpreter. -/
inductive RtErr where
  | runtimeError (msg : String)
deriving DecidableEq

/-- The environment of one run: name to value, insertion ordered. -/
def Env := List (String × PyVal)

/-- Python name in env. -/
def envMem (env : List (String × PyVal)) (k : String) : Bool :=
  (alGet env k).isSome

/-- The TOOLS dictionary, keyed by operation name.  The table.sort key is
absent; table.add_column, table.filter and control.for_each are bound to
the lambda entries that ignore their arguments and return None; set_var
returns its value keyword argument. -/
def TOOLS (eOpen eRead eExport : Handler) : String → Option Handler :=
  fun op =>
    match op with
    | "excel.open_workbook" => Option.some eOpen
    | "excel.read_table" => Option.some eRead
    | "excel.export" => Option.some eExport
    | "web.use_system" => Option.some (fun _ => PyVal.none)
    | "web.login" => Option.some (fun _ => PyVal.none)
    | "web.logout" => Option.some (fun _ => PyVal.none)
    | "web.goto_page" => Option.some (fun _ => PyVal.none)
    | "web.enter" => Option.some (fun _ => PyVal.none)
    | "web.click" => Option.some (fun _ => PyVal.none)
    | "web.extract" => Option.some (fun _ => PyVal.str "")
    | "set_var" => Option.some (fun args => (args.get "value").getD PyVal.none)
    | "call_result" => Option.some (fun _ => PyVal.none)
    | "table.add_column" => Option.some (fun _ => PyVal.none)
    | "table.filter" => Option.some (fun _ => PyVal.none)
    | "control.for_each" => Option.some (fun _ => PyVal.none)
    | _ => Option.none

/-- Python truthiness of the values the interpreter tests (result names). -/
def pyTruthyOpt (s : Option String) : Bool :=
  match s with
  | Option.none => false
  | Option.some s => s ≠ ""

/-- Python row.get(field) when the field name came out of an argument
tree; a non-string key is absent from the string-keyed row. -/
def rowGetPy (kvs : List (String × PyVal)) (field : PyVal) : PyVal :=
  match field with
  | .str f => (alGet kvs f).getD PyVal.none
  | _ => PyVal.none

/-- Test whether an optional value is the given string. -/
def optIsStr (o : Option PyVal) (s : String) : Bool :=
  match o with
  | Option.some (.str t) => t = s
  | _ => false

mutual

/-- _resolve_refs: replace ref nodes whose name is bound and qualified
nodes whose base is bound to a dictionary; recurse through dictionaries
and lists; leave everything else as is. -/
def resolveRefs (v : PyVal) (env : List (String × PyVal)) : PyVal :=
  match v with
  | .dict kvs =>
    if optIsStr (alGet kvs "type") "ref" &&
        (match alGet kvs "name" with
         | Option.some (.str n) => envMem env n
         | _ => false) then
      match alGet kvs "name" with
      | Option.some (.str n) => (alGet env n).getD PyVal.none
      | _ => PyVal.dict kvs
    else if optIsStr (alGet kvs "type") "qualified" then
      -- base and field must be present and the base bound in env; the
      -- bound value must itself be a dictionary, else the node is
      -- returned unresolved.
      match alGet kvs "base", alGet kvs "field" with
      | Option.some (.str b), Option.some field =>
        if envMem env b then
          match (alGet env b).getD PyVal.none with
          | .dict row => rowGetPy row field
          | _ => PyVal.dict kvs
        else PyVal.dict kvs
      | _, _ => PyVal.dict kvs
    else .dict (resolveKvs kvs env)
  | .list xs => .list (resolveList xs env)
  | other => other

/-- List branch of _resolve_refs. -/
def resolveList (xs : List PyVal) (env : List (String × PyVal)) : List PyVal :=
  match xs with
  | [] => []
  | x :: rest => resolveRefs x env :: resolveList rest env

/-- Dictionary comprehension branch of _resolve_refs. -/
def resolveKvs (kvs : List (String × PyVal)) (env : List (String × PyVal)) :
    List (String × PyVal) :=
  match kvs with
  | [] => []
  | (k, v) :: rest => (k, resolveRefs v env) :: resolveKvs rest env

end

/-- Python op.startswith on the table. marker, as a six-character test. -/
def opIsTableOp (op : String) : Bool :=
  op.data.take 6 = "table.".data

/-- The table and export source substitution shared by run and
_run_one_step: a string table argument naming a bound environment entry is
replaced by the bound value, and likewise for the excel.export source. -/
def substTable (op : String) (args : PyVal) (env : List (String × PyVal)) :
    PyVal :=
  let args :=
    if opIsTableOp op &&
        (match args.get "table" with
         | Option.some (.str t) => envMem env t
         | _ => false) then
      match args.get "table" with
      | Option.some (.str t) => args.set "table" ((alGet env t).getD PyVal.none)
      | _ => args
    else args
  if (op == "excel.export") &&
      (match args.get "source" with
       | Option.some (.str s) => envMem env s
       | _ => false) then
    match args.get "source" with
    | Option.some (.str s) => args.set "source" ((alGet env s).getD PyVal.none)
    | _ => args
  else args

/-- _run_one_step on a nested body step dictionary: read the id, op, args
and result fields with their defaults, resolve references, substitute
tables, then either log a dry-run entry or dispatch the tool, bind its
result and append the trace record. -/
def runBodyStep (tools : String → Option Handler) (step : PyVal)
    (env : List (String × PyVal)) (acc : List PyVal) (dry : Bool) :
    Except RtErr (List (String × PyVal) × List PyVal) :=
  let sid : PyVal := (step.get "id").getD (PyVal.str "")
  let op : String :=
    match step.get "op" with
    | Option.some (.str s) => s
    | Option.some _ => ""
    | Option.none => ""
  let args0 : PyVal := (step.get "args").getD (PyVal.dict [])
  let resultName : Option String :=
    match step.get "result" with
    | Option.some (.str s) => Option.some s
    | _ => Option.none
  let args := resolveRefs args0 env
  let args := substTable op args env
  if dry then
    Except.ok (env, acc ++ [PyVal.dict [("id", sid), ("op", PyVal.str op),
      ("args", args), ("dry_run", PyVal.bool true)]])
  else
    match tools op with
    | Option.none =>
      Except.error (RtErr.runtimeError ("Unknown operation: " ++ op))
    | Option.some fn =>
      let result := fn args
      let env :=
        if pyTruthyOpt resultName then
          alSet env (resultName.getD "") result
        else env
      Except.ok (env, acc ++ [PyVal.dict [("id", sid), ("op", PyVal.str op),
        ("args", args), ("result", result)]])

/-- The inner body loop of one for-each iteration. -/
def runBodyList (tools : String → Option Handler) (body : List PyVal)
    (env : List (String × PyVal)) (acc : List PyVal) :
    Except RtErr (List (String × PyVal) × List PyVal) :=
  match body with
  | [] => Except.ok (env, acc)
  | s :: rest =>
    match runBodyStep tools s env acc false with
    | Except.error e => Except.error e
    | Except.ok (env, acc) => runBodyList tools rest env acc

/-- The iteration loop of control.for_each: bind the loop variable to each
row (an empty dictionary for a non-dictionary element), run the body. -/
def runIters (tools : String → Option Handler) (var : String)
    (rows body : List PyVal) (env : List (String × PyVal))
    (acc : List PyVal) :
    Except RtErr (List (String × PyVal) × List PyVal) :=
  match rows with
  | [] => Except.ok (env, acc)
  | row :: rest =>
    let env := alSet env var
      (match row with
       | .dict _ => row
       | _ => PyVal.dict [])
    match runBodyList tools body env acc with
    | Except.error e => Except.error e
    | Except.ok (env, acc) => runIters tools var rest body env acc

/-- One pass of the main run loop on a top-level IR step: resolve
references, handle control.for_each inline (a dry run logs the step and
does not execute the body; otherwise the collection must be a list, the
body runs per element, and the loop variable is removed afterwards), and
dispatch every other operation through the registry. -/
def processStep (tools : String → Option Handler) (step : IRStep)
    (env : List (String × PyVal)) (acc : List PyVal) (dry : Bool) :
    Except RtErr (List (String × PyVal) × List PyVal) :=
  let op := step.op
  let args := resolveRefs step.args env
  if op = "control.for_each" then
    let collection := (args.get "collection").getD PyVal.none
    let var : String :=
      match args.get "var" with
      | Option.some (.str s) => s
      | Option.some _ => ""
      | Option.none => "row"
    let body : List PyVal :=
      match args.get "body" with
      | Option.some (.list xs) => xs
      | _ => []
    if dry then
      Except.ok (env, acc ++ [PyVal.dict [("id", PyVal.str step.id),
        ("op", PyVal.str op), ("args", args.set "body" (PyVal.list body)),
        ("dry_run", PyVal.bool true)]])
    else
      match collection with
      | .list rows =>
        match runIters tools var rows body env acc with
        | Except.error e => Except.error e
        | Except.ok (env, acc) => Except.ok (alPop env var, acc)
      | _ =>
        Except.error (RtErr.runtimeError
          "For each collection must be a table (list of rows).")
  else
    let args := substTable op args env
    if dry then
      Except.ok (env, acc ++ [PyVal.dict [("id", PyVal.str step.id),
        ("op", PyVal.str op), ("args", args), ("dry_run", PyVal.bool true)]])
    else
      match tools op with
      | Option.none =>
        Except.error (RtErr.runtimeError ("Unknown operation: " ++ op))
      | Option.some fn =>
        let result := fn args
        let env :=
          if pyTruthyOpt step.result then
            alSet env (step.result.getD "") result
          else env
        Except.ok (env, acc ++ [PyVal.dict [("id", PyVal.str step.id),
          ("op", PyVal.str op), ("args", args), ("result", result)]])

/-- The main loop of run over the top-level steps. -/
def runSteps (tools : String → Option Handler) (steps : List IRStep)
    (env : List (String × PyVal)) (acc : List PyVal) (dry : Bool) :
    Except RtErr (List (String × PyVal) × List PyVal) :=
  match steps with
  | [] => Except.ok (env, acc)
  | step :: rest =>
    match processStep tools step env acc dry with
    | Except.error e => Except.error e
    | Except.ok (env, acc) => runSteps tools rest env acc dry

/-- run: execute the IR steps against the TOOLS registry built over the
three abstract excel handlers, starting from an empty environment, and
return the trace; a raised RuntimeError propagates and the local trace is
lost. -/
def run (eOpen eRead eExport : Handler) (ir : IRProgram) (dry : Bool) :
    Except RtErr (List PyVal) :=
  match runSteps (TOOLS eOpen eRead eExport) ir.steps [] [] dry with
  | Except.error e => Except.error e
  | Except.ok (_, trace) => Except.ok trace

/-! # Spreadsheet sort (src/eac/runtime/tools/excel.py, table_sort)

Rows of a read table map column names to scalar cell values (the sheet
reader produces None, numbers, strings or booleans per cell); the cell
domain here is None, integers, strings and booleans, which no settled claim
restricts further.  The Python sorted builtin is a stable sort; a stable
sort with respect to a total preorder is uniquely determined by its input,
so it is embedded as insertion from the right, which places an element
before the existing entries its key ties with exactly when it came earlier
in the input.  reverse=True compares with the arguments swapped while
keeping stability, matching the embedded flipped comparator. -/

/-- Scalar cell values of a table row. -/
inductive Cell where
  | none : Cell
  | int (n : Int) : Cell
  | str (s : String) : Cell
  | bool (b : Bool) : Cell
deriving DecidableEq

/-- A row object: column name to cell value. -/
abbrev Row := List (String × Cell)

/-- Python row.get(key): the cell under the column name, or None. -/
def rowGet (r : List (String × Cell)) (k : String) : Cell :=
  match r with
  | [] => Cell.none
  | (k0, v) :: rest => if k0 = k then v else rowGet rest k

/-- Decimal rendering of a natural number as a string. -/
def natStr (n : Nat) : String := String.mk (natDigits n)

/-- Python str on the scalar cell values (int rendering is plain decimal
with a leading minus for negatives). -/
def pyStr (c : Cell) : String :=
  match c with
  | .none => "None"
  | .int n => if n < 0 then "-" ++ natStr n.natAbs else natStr n.toNat
  | .str s => s
  | .bool b => if b then "True" else "False"

/-- _sort_key: None maps below everything, all other values compare by
their string rendering. -/
def sortKey (c : Cell) : Nat × String :=
  match c with
  | .none => (0, "")
  | v => (1, pyStr v)

/-- Code point lexicographic comparison of character lists, the Python
string order on the rendered keys. -/
def charsLe : List Char → List Char → Bool
  | [], _ => true
  | _ :: _, [] => false
  | a :: as, b :: bs =>
    if a.toNat < b.toNat then true
    else if a.toNat = b.toNat then charsLe as bs
    else false

/-- Python tuple comparison on the (rank, rendered string) sort keys. -/
def keyLe (a b : Nat × String) : Bool :=
  if a.1 < b.1 then true
  else if a.1 = b.1 then charsLe a.2.data b.2.data
  else false

/-- Stable insertion of one element: it lands before the first existing
element it compares at-or-below, hence before later-input elements whose
keys tie with it. -/
def sInsert (le : Row → Row → Bool) (a : Row) : List Row → List Row
  | [] => [a]
  | b :: bs => if le a b then a :: b :: bs else b :: sInsert le a bs

/-- The Python sorted builtin on rows under a boolean total preorder:
stable, by right-fold insertion. -/
def pySorted (le : Row → Row → Bool) : List Row → List Row
  | [] => []
  | x :: xs => sInsert le x (pySorted le xs)

/-- The row comparator sorted uses in table_sort: the sort key of the
referenced cell, with the argument order swapped under reverse=True. -/
def rowLe (k : String) (ascending : Bool) (r1 r2 : Row) : Bool :=
  if ascending then keyLe (sortKey (rowGet r1 k)) (sortKey (rowGet r2 k))
  else keyLe (sortKey (rowGet r2 k)) (sortKey (rowGet r1 k))

/-- table_sort: empty tables come back unchanged; the by argument must be
a string or a qualified reference dictionary with a non-empty field, else
the table comes back unchanged; otherwise sort by the referenced column. -/
def tableSort (table : List Row) (sortBy : PyVal) (ascending : Bool) :
    List Row :=
  match table with
  | [] => []
  | _ :: _ =>
    let key : Option String :=
      match sortBy with
      | .str s => Option.some s
      | .dict kvs =>
        if optIsStr (alGet kvs "type") "qualified" then
          match alGet kvs "field" with
          | Option.some (.str f) => if f = "" then Option.none else Option.some f
          | _ => Option.none
        else Option.none
      | _ => Option.none
    match key with
    | Option.none => table
    | Option.some k => pySorted (rowLe k ascending) table

/-! # Step id collection for the uniqueness invariant -/

mutual

/-- Collect every string stored under an id key anywhere inside an IR
argument tree.  Lowered argument trees carry id keys exactly on the nested
body step dictionaries of control.for_each steps. -/
def idsOfVal : PyVal → List String
  | .dict kvs => idsOfKvs kvs
  | .list xs => idsOfList xs
  | _ => []

/-- List part of idsOfVal. -/
def idsOfList : List PyVal → List String
  | [] => []
  | x :: rest => idsOfVal x ++ idsOfList rest

/-- Dictionary part of idsOfVal. -/
def idsOfKvs : List (String × PyVal) → List String
  | [] => []
  | (k, v) :: rest =>
    (if k = "id" then
      (match v with
       | .str s => [s]
       | _ => []) else []) ++ idsOfVal v ++ idsOfKvs rest

end

/-- All ids carried by one IR step: its own id plus the ids of the nested
body steps inside its arguments. -/
def idsOfStep (s : IRStep) : List String := s.id :: idsOfVal s.args

/-- All ids carried by a list of IR steps. -/
def topIds (steps : List IRStep) : List String :=
  match steps with
  | [] => []
  | s :: rest => idsOfStep s ++ topIds rest

/-- All step ids of an IR program, nested body steps included. -/
def irIds (ir : IRProgram) : List String := topIds ir.steps

/-! # Concrete inputs used to settle the claims -/

/-- Handler stub standing in for the three excel input/output handlers
where a run never reaches them. -/
def stubHandler : Handler := fun _ => PyVal.none

/-- A two-row table literal used as a set_var value. -/
def c3table : PyVal :=
  PyVal.list [PyVal.dict [("Balance", PyVal.int 50), ("Name", PyVal.str "Alice")],
    PyVal.dict [("Balance", PyVal.int 0), ("Name", PyVal.str "Bob")]]

/-- The comparison-shaped condition the spreadsheet filter documents. -/
def c3cond : PyVal :=
  PyVal.dict [("type", PyVal.str "comparison"),
    ("left", PyVal.dict [("type", PyVal.str "qualified"),
      ("base", PyVal.str "T"), ("field", PyVal.str "Balance")]),
    ("op", PyVal.str ">"),
    ("right", PyVal.dict [("type", PyVal.str "number"), ("value", PyVal.int 0)])]

/-- IR binding a table and then filtering it: set_var T, table.filter T. -/
def c3ir : IRProgram :=
  IRProgram.mk "0.1.0"
    [IRStep.mk "step_001" "set_var"
      (PyVal.dict [("name", PyVal.str "T"), ("value", c3table)])
      (Option.some "T") Option.none,
     IRStep.mk "step_002" "table.filter"
      (PyVal.dict [("table", PyVal.str "T"), ("condition", c3cond)])
      (Option.some "T") (Option.some "table")]
    (PyVal.dict [("default", PyVal.str "stop")]) []

/-- IR whose second step carries the op table.sort, which the registry does
not contain. -/
def c5ir : IRProgram :=
  IRProgram.mk "0.1.0"
    [IRStep.mk "step_001" "set_var"
      (PyVal.dict [("name", PyVal.str "T"), ("value", c3table)])
      (Option.some "T") Option.none,
     IRStep.mk "step_002" "table.sort"
      (PyVal.dict [("table", PyVal.str "T"), ("by", PyVal.str "Balance"),
        ("ascending", PyVal.bool true)])
      (Option.some "T") (Option.some "table")]
    (PyVal.dict [("default", PyVal.str "stop")]) []

/-- A nested body step dictionary: one call_result per iteration. -/
def c6body : PyVal :=
  PyVal.dict [("id", PyVal.str "step_002"), ("op", PyVal.str "call_result"),
    ("args", PyVal.dict [("name", PyVal.str "x")]), ("result", PyVal.str "x"),
    ("type", PyVal.none)]

/-- IR with one control.for_each step over a two-element collection with a
one-step body. -/
def c6ir : IRProgram :=
  IRProgram.mk "0.1.0"
    [IRStep.mk "step_001" "control.for_each"
      (PyVal.dict [("var", PyVal.str "row"),
        ("collection", PyVal.list [PyVal.dict [], PyVal.dict []]),
        ("body", PyVal.list [c6body])])
      Option.none Option.none]
    (PyVal.dict [("default", PyVal.str "stop")]) []

/-- Loop-free IR used to instantiate the dry-run step-count theorem. -/
def c6wir : IRProgram :=
  IRProgram.mk "0.1.0"
    [IRStep.mk "step_001" "call_result"
      (PyVal.dict [("name", PyVal.str "x")]) (Option.some "x") Option.none]
    (PyVal.dict [("default", PyVal.str "stop")]) []

/-- Program declaring a table and looping over it with a custom loop
variable whose field is read in the body. -/
def c4prog : Program :=
  Program.mk
    [Stmt.treatRangeAsTable "S" "A1B2" "T",
     Stmt.forEach "item" (Expr.identifier "T")
       [Stmt.setVar "v" (Expr.qualifiedRef "item" "Amount")]]

/-- A for-each source whose body line is indented four spaces under the
colon line. -/
def c1src : String := "For each row in T:\n    Set v to row.Amount.\n"

/-- The Sort sentence of the claimed grammar row. -/
def c8src : String := "Sort T by T.Balance ascending."

/-- The same sentence tokenized as if Sort, by and ascending were keyword
table entries (as a loaded keyword resource would make them). -/
def c8toksKw : List Token :=
  [Token.mk TokKind.keyword (PyVal.str "Sort") 1 4,
   Token.mk TokKind.ident (PyVal.str "T") 1 6,
   Token.mk TokKind.keyword (PyVal.str "by") 1 9,
   Token.mk TokKind.ident (PyVal.str "T") 1 11,
   Token.mk TokKind.dot (PyVal.str ".") 1 11,
   Token.mk TokKind.ident (PyVal.str "Balance") 1 19,
   Token.mk TokKind.keyword (PyVal.str "ascending") 1 29,
   Token.mk TokKind.dot (PyVal.str ".") 1 29,
   Token.mk TokKind.eof PyVal.none 1 30]

/-- The token list tokenize produces for the Sort sentence under the
fallback keyword set (Sort, by and ascending are not keywords there). -/
def c8toksIdent : List Token :=
  [Token.mk TokKind.ident (PyVal.str "Sort") 1 4,
   Token.mk TokKind.ident (PyVal.str "T") 1 6,
   Token.mk TokKind.ident (PyVal.str "by") 1 9,
   Token.mk TokKind.ident (PyVal.str "T") 1 11,
   Token.mk TokKind.dot (PyVal.str ".") 1 11,
   Token.mk TokKind.ident (PyVal.str "Balance") 1 19,
   Token.mk TokKind.ident (PyVal.str "ascending") 1 29,
   Token.mk TokKind.dot (PyVal.str ".") 1 29,
   Token.mk TokKind.eof PyVal.none 1 30]

/-- Two rows with the same value in the sort column and different payloads:
a key tie. -/
def c7rowX : List (String × Cell) := [("A", Cell.int 1), ("N", Cell.str "x")]

/-- Second tied row. -/
def c7rowY : List (String × Cell) := [("A", Cell.int 1), ("N", Cell.str "y")]

/-- A table with a key tie in column A. -/
def c7tied : List Row := [c7rowX, c7rowY]

/-- A table with pairwise distinct keys in column A. -/
def c7distinct : List Row :=
  [[("A", Cell.int 2)], [("A", Cell.int 1)], [("A", Cell.int 3)]]

/-- Ids of an optional step. -/
def idsOfOpt : Option IRStep → List String
  | Option.some st => idsOfStep st
  | Option.none => []

/-- A list of ids is the image under the step id formatting of a strictly
increasing list of counter values within the closed interval [lo, hi]. -/
def IdSpec (ids : List String) (lo hi : Nat) : Prop :=
  ∃ ns : List Nat, ids = ns.map stepId ∧ ns.Pairwise (· < ·) ∧
    ∀ m ∈ ns, lo ≤ m ∧ m ≤ hi

/-! # Theorems

Order properties of the sort key comparison, then the stable sort lemmas,
then the lowering id lemmas, then the interpreter lemmas, then one theorem
per claim. -/

theorem charsLe_refl (l : List Char) : charsLe l l = true := by
  induction l with
  | nil => rfl
  | cons a as ih => simp [charsLe, ih]

theorem charsLe_total (a : List Char) : ∀ b, charsLe a b = true ∨ charsLe b a = true := by
  induction a with
  | nil => intro b; left; rfl
  | cons x xs ih =>
    intro b
    cases b with
    | nil => right; rfl
    | cons y ys =>
      simp only [charsLe]
      rcases Nat.lt_trichotomy x.toNat y.toNat with h | h | h
      · left; simp [h]
      · have hxy : ¬ x.toNat < y.toNat := by omega
        have hyx : ¬ y.toNat < x.toNat := by omega
        rcases ih ys with h2 | h2
        · left; simp [hxy, h, h2]
        · right; simp [hyx, h.symm, h2]
      · right; simp [h]

theorem charsLe_trans (a : List Char) :
    ∀ b c, charsLe a b = true → charsLe b c = true → charsLe a c = true := by
  induction a with
  | nil => intro b c _ _; rfl
  | cons x xs ih =>
    intro b c hab hbc
    cases b with
    | nil => simp [charsLe] at hab
    | cons y ys =>
      cases c with
      | nil => simp [charsLe] at hbc
      | cons z zs =>
        simp only [charsLe] at hab hbc ⊢
        by_cases h1 : x.toNat < y.toNat <;> by_cases h2 : y.toNat < z.toNat
        · simp [show x.toNat < z.toNat by omega]
        · simp [h2] at hbc
          by_cases h3 : y.toNat = z.toNat
          · simp [show x.toNat < z.toNat by omega]
          · simp [h3] at hbc
        · simp [h1] at hab
          by_cases h3 : x.toNat = y.toNat
          · simp [show x.toNat < z.toNat by omega]
          · simp [h3] at hab
        · simp [h1] at hab
          simp [h2] at hbc
          by_cases h3 : x.toNat = y.toNat
          · by_cases h4 : y.toNat = z.toNat
            · simp only [h3] at *
              simp only [h4] at *
              simp only [if_neg h2, if_pos rfl] at hab hbc ⊢
              simp at hab hbc
              exact ih ys zs hab hbc
            · simp [h4] at hbc
          · simp [h3] at hab

theorem charsLe_antisymm (a : List Char) :
    ∀ b, charsLe a b = true → charsLe b a = true → a = b := by
  induction a with
  | nil =>
    intro b _ hba
    cases b with
    | nil => rfl
    | cons y ys => simp [charsLe] at hba
  | cons x xs ih =>
    intro b hab hba
    cases b with
    | nil => simp [charsLe] at hab
    | cons y ys =>
      simp only [charsLe] at hab hba
      by_cases h1 : x.toNat < y.toNat
      · have : ¬ y.toNat < x.toNat := by omega
        simp [this, show y.toNat ≠ x.toNat by omega] at hba
      · by_cases h2 : y.toNat < x.toNat
        · simp [h1, show x.toNat ≠ y.toNat by omega] at hab
        · have hxy : x.toNat = y.toNat := by omega
          simp [h1, hxy] at hab
          simp [h2, hxy.symm] at hba
          have hchar : x = y := by
            have := congrArg Char.ofNat hxy
            rwa [Char.ofNat_toNat, Char.ofNat_toNat] at this
          rw [hchar, ih ys hab hba]

theorem keyLe_refl (a : Nat × String) : keyLe a a = true := by
  simp [keyLe, charsLe_refl]

theorem keyLe_total (a b : Nat × String) : keyLe a b = true ∨ keyLe b a = true := by
  simp only [keyLe]
  rcases Nat.lt_trichotomy a.1 b.1 with h | h | h
  · left; simp [h]
  · have h1 : ¬ a.1 < b.1 := by omega
    have h2 : ¬ b.1 < a.1 := by omega
    rcases charsLe_total a.2.data b.2.data with hc | hc
    · left; simp [h1, h, hc]
    · right; simp [h2, h.symm, hc]
  · right; simp [h]

theorem keyLe_trans (a b c : Nat × String) (hab : keyLe a b = true)
    (hbc : keyLe b c = true) : keyLe a c = true := by
  simp only [keyLe] at hab hbc ⊢
  by_cases h1 : a.1 < b.1 <;> by_cases h2 : b.1 < c.1
  · simp [show a.1 < c.1 by omega]
  · simp [h2] at hbc
    by_cases h3 : b.1 = c.1
    · simp [show a.1 < c.1 by omega]
    · simp [h3] at hbc
  · simp [h1] at hab
    by_cases h3 : a.1 = b.1
    · simp [show a.1 < c.1 by omega]
    · simp [h3] at hab
  · simp [h1] at hab
    simp [h2] at hbc
    by_cases h3 : a.1 = b.1
    · by_cases h4 : b.1 = c.1
      · simp [h3] at hab
        simp [h4] at hbc
        have h5 : a.1 = c.1 := by omega
        have h6 : ¬ a.1 < c.1 := by omega
        simp [h6, h5]
        exact charsLe_trans _ _ _ hab hbc
      · simp [h4] at hbc
    · simp [h3] at hab

theorem keyLe_antisymm (a b : Nat × String) (hab : keyLe a b = true)
    (hba : keyLe b a = true) : a = b := by
  simp only [keyLe] at hab hba
  by_cases h1 : a.1 < b.1
  · simp [show ¬ b.1 < a.1 by omega, show b.1 ≠ a.1 by omega] at hba
  · by_cases h2 : b.1 < a.1
    · simp [h1, show a.1 ≠ b.1 by omega] at hab
    · have h3 : a.1 = b.1 := by omega
      simp [h1, h3] at hab
      simp [h2, h3.symm] at hba
      have hdata : a.2.data = b.2.data := charsLe_antisymm _ _ hab hba
      have hstr : a.2 = b.2 := String.ext hdata
      exact Prod.ext h3 hstr

theorem rowLe_total (k : String) (asc : Bool) (r1 r2 : Row) :
    rowLe k asc r1 r2 = true ∨ rowLe k asc r2 r1 = true := by
  cases asc <;> simp [rowLe] <;> exact keyLe_total _ _

theorem rowLe_trans (k : String) (asc : Bool) (a b c : Row)
    (hab : rowLe k asc a b = true) (hbc : rowLe k asc b c = true) :
    rowLe k asc a c = true := by
  cases asc <;> simp only [rowLe] at hab hbc ⊢
  · exact keyLe_trans _ _ _ hbc hab
  · exact keyLe_trans _ _ _ hab hbc

theorem mem_sInsert (le : Row → Row → Bool) (a x : Row) (l : List Row) :
    x ∈ sInsert le a l ↔ x = a ∨ x ∈ l := by
  induction l with
  | nil => simp [sInsert]
  | cons b bs ih =>
    simp only [sInsert]
    by_cases h : le a b = true
    · simp [h, List.mem_cons]
    · simp [h, List.mem_cons, ih]
      tauto

theorem sInsert_pairwise (le : Row → Row → Bool)
    (htot : ∀ a b, le a b = true ∨ le b a = true)
    (htr : ∀ a b c, le a b = true → le b c = true → le a c = true)
    (a : Row) (l : List Row) (h : l.Pairwise (fun x y => le x y = true)) :
    (sInsert le a l).Pairwise (fun x y => le x y = true) := by
  induction l with
  | nil => simp [sInsert]
  | cons b bs ih =>
    rcases List.pairwise_cons.mp h with ⟨hb, hbs⟩
    by_cases hab : le a b = true
    · simp only [sInsert, hab, if_true]
      refine List.pairwise_cons.mpr ⟨?_, h⟩
      intro x hx
      rcases List.mem_cons.mp hx with rfl | hx
      · exact hab
      · exact htr a b x hab (hb x hx)
    · simp only [sInsert, hab, if_false]
      refine List.pairwise_cons.mpr ⟨?_, ih hbs⟩
      intro x hx
      rcases (mem_sInsert le a x bs).mp hx with rfl | hx
      · rcases htot x b with h1 | h1
        · exact absurd h1 hab
        · exact h1
      · exact hb x hx

theorem pySorted_pairwise (le : Row → Row → Bool)
    (htot : ∀ a b, le a b = true ∨ le b a = true)
    (htr : ∀ a b c, le a b = true → le b c = true → le a c = true)
    (l : List Row) :
    (pySorted le l).Pairwise (fun x y => le x y = true) := by
  induction l with
  | nil => simp [pySorted]
  | cons x xs ih => exact sInsert_pairwise le htot htr x _ ih

theorem sInsert_perm (le : Row → Row → Bool) (a : Row) (l : List Row) :
    (sInsert le a l).Perm (a :: l) := by
  induction l with
  | nil => exact List.Perm.refl _
  | cons b bs ih =>
    simp only [sInsert]
    by_cases h : le a b = true
    · simp [h]
    · simp only [h, if_false]
      exact (ih.cons b).trans (List.Perm.swap a b bs)

theorem pySorted_perm (le : Row → Row → Bool) (l : List Row) :
    (pySorted le l).Perm l := by
  induction l with
  | nil => exact List.Perm.refl _
  | cons x xs ih =>
    exact (sInsert_perm le x (pySorted le xs)).trans (ih.cons x)

theorem sInsert_filter (le : Row → Row → Bool) (p : Row → Bool)
    (H : ∀ a b, p a = true → p b = true → le a b = true)
    (x : Row) (l : List Row) :
    (sInsert le x l).filter p =
      if p x then x :: l.filter p else l.filter p := by
  induction l with
  | nil => simp [sInsert, List.filter_cons]
  | cons b bs ih =>
    simp only [sInsert]
    by_cases hle : le x b = true
    · simp only [hle, if_true]
      by_cases hpx : p x = true
      · simp [List.filter_cons, hpx]
      · simp [List.filter_cons, hpx]
    · simp only [hle, if_false]
      by_cases hpx : p x = true
      · have hpb : ¬ p b = true := by
          intro hpb
          exact hle (H x b hpx hpb)
        simp [List.filter_cons, hpb, hpx, ih]
      · simp [List.filter_cons, hpx, ih]

theorem pySorted_filter (le : Row → Row → Bool) (p : Row → Bool)
    (H : ∀ a b, p a = true → p b = true → le a b = true)
    (l : List Row) :
    (pySorted le l).filter p = l.filter p := by
  induction l with
  | nil => rfl
  | cons x xs ih =>
    simp only [pySorted, sInsert_filter le p H, ih, List.filter_cons]

theorem pySorted_reverse_eq (k : String) (t : List Row)
    (hd : t.Pairwise (fun r1 r2 => sortKey (rowGet r1 k) ≠ sortKey (rowGet r2 k))) :
    (pySorted (rowLe k true) t).reverse = pySorted (rowLe k false) t := by
  have sortedA : (pySorted (rowLe k true) t).Pairwise
      (fun x y => rowLe k true x y = true) :=
    pySorted_pairwise _ (rowLe_total k true) (rowLe_trans k true) t
  have sortedD : (pySorted (rowLe k false) t).Pairwise
      (fun x y => rowLe k false x y = true) :=
    pySorted_pairwise _ (rowLe_total k false) (rowLe_trans k false) t
  have revSorted : (pySorted (rowLe k true) t).reverse.Pairwise
      (fun x y => rowLe k false x y = true) := by
    rw [List.pairwise_reverse]
    exact sortedA
  have pArT : (pySorted (rowLe k true) t).reverse.Perm t :=
    (List.reverse_perm _).trans (pySorted_perm _ t)
  have pDt : (pySorted (rowLe k false) t).Perm t := pySorted_perm _ t
  have hsymm : ∀ {x y : Row},
      sortKey (rowGet x k) ≠ sortKey (rowGet y k) →
      sortKey (rowGet y k) ≠ sortKey (rowGet x k) := fun h e => h e.symm
  have distAr : (pySorted (rowLe k true) t).reverse.Pairwise
      (fun r1 r2 => sortKey (rowGet r1 k) ≠ sortKey (rowGet r2 k)) :=
    (List.Perm.pairwise_iff hsymm pArT).mpr hd
  have distD : (pySorted (rowLe k false) t).Pairwise
      (fun r1 r2 => sortKey (rowGet r1 k) ≠ sortKey (rowGet r2 k)) :=
    (List.Perm.pairwise_iff hsymm pDt).mpr hd
  haveI : IsAntisymm Row (fun x y => rowLe k false x y = true ∧
      sortKey (rowGet x k) ≠ sortKey (rowGet y k)) := by
    constructor
    intro a b h1 h2
    exfalso
    apply h1.2
    exact keyLe_antisymm _ _ (by simpa [rowLe] using h2.1) (by simpa [rowLe] using h1.1)
  exact List.eq_of_perm_of_sorted (pArT.trans pDt.symm)
    (revSorted.and distAr) (sortedD.and distD)

/-- C7: for tables of row objects and a sortable column, table_sort is a
permutation of its input that is stable under the declared key function
(None ranks below everything, other cells by their string rendering); the
claimed identity that reversing the ascending sort equals the descending
sort fails on key ties (see the counterexample) and holds exactly under the
amended premise that the key values are pairwise distinct. -/
theorem C7_table_sort_stable_perm_reverse (t : List Row) (k : String) :
    (∀ asc, (tableSort t (PyVal.str k) asc).Perm t ∧
        ∀ v : Nat × String,
          (tableSort t (PyVal.str k) asc).filter
              (fun r => decide (sortKey (rowGet r k) = v)) =
            t.filter (fun r => decide (sortKey (rowGet r k) = v))) ∧
      (t.Pairwise (fun r1 r2 => sortKey (rowGet r1 k) ≠ sortKey (rowGet r2 k)) →
        (tableSort t (PyVal.str k) true).reverse = tableSort t (PyVal.str k) false) := by
  cases t with
  | nil => exact ⟨fun asc => ⟨List.Perm.refl _, fun v => rfl⟩, fun _ => rfl⟩
  | cons r rs =>
    have hred : ∀ asc, tableSort (r :: rs) (PyVal.str k) asc =
        pySorted (rowLe k asc) (r :: rs) := fun _ => rfl
    refine ⟨fun asc => ⟨?_, fun v => ?_⟩, fun hd => ?_⟩
    · rw [hred]
      exact pySorted_perm _ _
    · rw [hred]
      apply pySorted_filter
      intro a b ha hb
      have h1 : sortKey (rowGet a k) = v := of_decide_eq_true ha
      have h2 : sortKey (rowGet b k) = v := of_decide_eq_true hb
      cases asc <;> simp [rowLe, h1, h2, keyLe_refl]
    · rw [hred, hred]
      exact pySorted_reverse_eq k _ hd

/-- C7 counterexample: on a table whose two rows tie in the sort column,
reversing the ascending sort reverses the tied pair, while the stable
descending sort keeps the original pair order, so the two disagree. -/
theorem C7_reverse_desc_mismatch_on_ties :
    (tableSort c7tied (PyVal.str "A") true).reverse ≠
      tableSort c7tied (PyVal.str "A") false := by decide

/-- C7 witness: the amended reverse identity evaluated on a concrete table
with pairwise distinct keys. -/
theorem C7_table_sort_stable_perm_reverse_witness :
    c7distinct.Pairwise
        (fun r1 r2 => sortKey (rowGet r1 "A") ≠ sortKey (rowGet r2 "A")) ∧
      (tableSort c7distinct (PyVal.str "A") true).reverse =
        tableSort c7distinct (PyVal.str "A") false :=
  ⟨by decide, (C7_table_sort_stable_perm_reverse c7distinct "A").2 (by decide)⟩

theorem digitVal_digitChar (d : Nat) (h : d < 10) : digitVal (digitChar d) = d := by
  interval_cases d <;> rfl

theorem digitsToNat_append (ds : List Char) (c : Char) :
    digitsToNat (ds ++ [c]) = 10 * digitsToNat ds + digitVal c := by
  simp [digitsToNat, List.foldl_append, Nat.mul_comm]

theorem digitsToNat_natDigitsAux (fuel : Nat) :
    ∀ n, n < fuel → digitsToNat (natDigitsAux fuel n) = n := by
  induction fuel with
  | zero => intro n h; omega
  | succ fuel ih =>
    intro n h
    by_cases h10 : n < 10
    · simp [natDigitsAux, h10, digitsToNat, digitVal_digitChar n h10]
    · have hlt : n / 10 < n := Nat.div_lt_self (by omega) (by norm_num)
      have hd : n / 10 < fuel := by omega
      simp only [natDigitsAux, if_neg h10]
      rw [digitsToNat_append, ih _ hd,
        digitVal_digitChar _ (Nat.mod_lt _ (by norm_num))]
      omega

theorem digitsToNat_natDigits (n : Nat) : digitsToNat (natDigits n) = n :=
  digitsToNat_natDigitsAux _ n (Nat.lt_succ_self n)

theorem digitsToNat_replicate_zero (k : Nat) (ds : List Char) :
    digitsToNat (List.replicate k '0' ++ ds) = digitsToNat ds := by
  induction k with
  | zero => simp
  | succ k ih =>
    rw [List.replicate_succ, List.cons_append]
    have hstep : digitsToNat ('0' :: (List.replicate k '0' ++ ds)) =
        digitsToNat (List.replicate k '0' ++ ds) := rfl
    rw [hstep, ih]

theorem stepId_inj {n m : Nat} (h : stepId n = stepId m) : n = m := by
  have hdata := congrArg String.data h
  simp only [stepId, String.data_append] at hdata
  have h2 := List.append_cancel_left hdata
  have h3 := congrArg digitsToNat h2
  rwa [digitsToNat_replicate_zero, digitsToNat_replicate_zero,
    digitsToNat_natDigits, digitsToNat_natDigits] at h3

theorem exprToArg_ids (e : Expr) : idsOfVal (exprToArg e) = [] := by
  cases e with
  | numberLit v => cases v <;> rfl
  | _ => rfl

theorem idsOfVal_optStr (o : Option String) : idsOfVal (optStr o) = [] := by
  cases o <;> rfl

theorem idSpec_nil (lo hi : Nat) : IdSpec [] lo hi :=
  ⟨[], rfl, List.Pairwise.nil, by simp⟩

theorem idSpec_single (n : Nat) : IdSpec [stepId n] n n :=
  ⟨[n], rfl, by simp, by simp⟩

theorem idSpec_mono {ids : List String} {lo hi lo' hi' : Nat}
    (h : IdSpec ids lo hi) (hlo : lo' ≤ lo) (hhi : hi ≤ hi') :
    IdSpec ids lo' hi' := by
  obtain ⟨ns, h1, h2, h3⟩ := h
  exact ⟨ns, h1, h2, fun m hm => ⟨le_trans hlo (h3 m hm).1, le_trans (h3 m hm).2 hhi⟩⟩

theorem idSpec_append {ids1 ids2 : List String} {lo1 hi1 lo2 hi2 : Nat}
    (h1 : IdSpec ids1 lo1 hi1) (h2 : IdSpec ids2 lo2 hi2)
    (hmid : hi1 < lo2) (hlo : lo1 ≤ lo2) (hhi : hi1 ≤ hi2) :
    IdSpec (ids1 ++ ids2) lo1 hi2 := by
  obtain ⟨ns1, e1, p1, b1⟩ := h1
  obtain ⟨ns2, e2, p2, b2⟩ := h2
  refine ⟨ns1 ++ ns2, by simp [e1, e2], ?_, ?_⟩
  · rw [List.pairwise_append]
    refine ⟨p1, p2, fun a ha b hb => ?_⟩
    have := (b1 a ha).2
    have := (b2 b hb).1
    omega
  · intro m hm
    rcases List.mem_append.mp hm with hm | hm
    · have := b1 m hm
      omega
    · have := b2 m hm
      omega

theorem idSpec_cons_head {ids : List String} {n hi : Nat}
    (h : IdSpec ids (n + 1) hi) (hn : n ≤ hi) :
    IdSpec (stepId n :: ids) n hi := by
  obtain ⟨ns, e1, p1, b1⟩ := h
  refine ⟨n :: ns, by simp [e1], ?_, ?_⟩
  · rw [List.pairwise_cons]
    exact ⟨fun m hm => by have := (b1 m hm).1; omega, p1⟩
  · intro m hm
    rcases List.mem_cons.mp hm with rfl | hm
    · omega
    · have := b1 m hm
      omega

mutual

theorem stmtToStep_spec (s : Stmt) (n : Nat) :
    n ≤ (stmtToStep s n n).2 ∧
      IdSpec (idsOfOpt (stmtToStep s n n).1) n (stmtToStep s n n).2 := by
  cases s with
  | openWorkbook path =>
    exact ⟨Nat.le_refl n, by
      simpa [idsOfOpt, idsOfStep, idsOfVal, idsOfKvs, stmtToStep]
        using idSpec_single n⟩
  | treatRangeAsTable sheet rangeSpec tableName =>
    exact ⟨Nat.le_refl n, by
      simpa [idsOfOpt, idsOfStep, idsOfVal, idsOfKvs, stmtToStep]
        using idSpec_single n⟩
  | setVar name value =>
    exact ⟨Nat.le_refl n, by
      simpa [idsOfOpt, idsOfStep, idsOfVal, idsOfKvs, stmtToStep, exprToArg_ids]
        using idSpec_single n⟩
  | addColumn table name expr =>
    exact ⟨Nat.le_refl n, by
      simpa [idsOfOpt, idsOfStep, idsOfVal, idsOfKvs, stmtToStep, exprToArg_ids]
        using idSpec_single n⟩
  | filterTable table condition =>
    exact ⟨Nat.le_refl n, by
      simpa [idsOfOpt, idsOfStep, idsOfVal, idsOfKvs, stmtToStep, exprToArg_ids]
        using idSpec_single n⟩
  | sortTable table sortBy asc => exact ⟨Nat.le_refl n, idSpec_nil n n⟩
  | groupTable table groupBy aggs => exact ⟨Nat.le_refl n, idSpec_nil n n⟩
  | exportTable source path =>
    exact ⟨Nat.le_refl n, by
      simpa [idsOfOpt, idsOfStep, idsOfVal, idsOfKvs, stmtToStep, exprToArg_ids]
        using idSpec_single n⟩
  | callResult name =>
    exact ⟨Nat.le_refl n, by
      simpa [idsOfOpt, idsOfStep, idsOfVal, idsOfKvs, stmtToStep]
        using idSpec_single n⟩
  | useSystem name version =>
    exact ⟨Nat.le_refl n, by
      simpa [idsOfOpt, idsOfStep, idsOfVal, idsOfKvs, stmtToStep]
        using idSpec_single n⟩
  | logIn credential =>
    exact ⟨Nat.le_refl n, by
      simpa [idsOfOpt, idsOfStep, idsOfVal, idsOfKvs, stmtToStep]
        using idSpec_single n⟩
  | logOut =>
    exact ⟨Nat.le_refl n, by
      simpa [idsOfOpt, idsOfStep, idsOfVal, idsOfKvs, stmtToStep]
        using idSpec_single n⟩
  | goToPage page =>
    exact ⟨Nat.le_refl n, by
      simpa [idsOfOpt, idsOfStep, idsOfVal, idsOfKvs, stmtToStep]
        using idSpec_single n⟩
  | enterField fieldId value =>
    exact ⟨Nat.le_refl n, by
      simpa [idsOfOpt, idsOfStep, idsOfVal, idsOfKvs, stmtToStep, exprToArg_ids]
        using idSpec_single n⟩
  | clickElement elementId =>
    exact ⟨Nat.le_refl n, by
      simpa [idsOfOpt, idsOfStep, idsOfVal, idsOfKvs, stmtToStep]
        using idSpec_single n⟩
  | verifyCondition condition => exact ⟨Nat.le_refl n, idSpec_nil n n⟩
  | extractField varName selector =>
    exact ⟨Nat.le_refl n, by
      simpa [idsOfOpt, idsOfStep, idsOfVal, idsOfKvs, stmtToStep]
        using idSpec_single n⟩
  | ifElse c tb eb => exact ⟨Nat.le_refl n, idSpec_nil n n⟩
  | onError action value => exact ⟨Nat.le_refl n, idSpec_nil n n⟩
  | comment text => exact ⟨Nat.le_refl n, idSpec_nil n n⟩
  | forEach var collection body =>
    have hb := bodyToSteps_spec body n
    rcases hbs : bodyToSteps body n with ⟨bs, c2⟩
    rw [hbs] at hb
    have hids : idsOfOpt (stmtToStep (Stmt.forEach var collection body) n n).1 =
        stepId n :: idsOfVal (PyVal.list bs) := by
      simp [stmtToStep, hbs, idsOfOpt, idsOfStep, idsOfVal, idsOfKvs, exprToArg_ids]
    have hc2 : (stmtToStep (Stmt.forEach var collection body) n n).2 = c2 := by
      simp [stmtToStep, hbs]
    rw [hids, hc2]
    exact ⟨hb.1, idSpec_cons_head hb.2 hb.1⟩

theorem bodyToSteps_spec (body : List Stmt) (c : Nat) :
    c ≤ (bodyToSteps body c).2 ∧
      IdSpec (idsOfVal (PyVal.list (bodyToSteps body c).1)) (c + 1)
        (bodyToSteps body c).2 := by
  cases body with
  | nil => exact ⟨Nat.le_refl c, idSpec_nil (c + 1) c⟩
  | cons s rest =>
    have hs := stmtToStep_spec s (c + 1)
    rcases h1 : stmtToStep s (c + 1) (c + 1) with ⟨sub?, c2⟩
    rw [h1] at hs
    have hrest := bodyToSteps_spec rest c2
    rcases h2 : bodyToSteps rest c2 with ⟨tail, c3⟩
    rw [h2] at hrest
    cases sub? with
    | some sub =>
      have hval : bodyToSteps (s :: rest) c =
          (PyVal.dict [("id", PyVal.str sub.id), ("op", PyVal.str sub.op),
            ("args", sub.args), ("result", optStr sub.result),
            ("type", optStr sub.result_type)] :: tail, c3) := by
        simp [bodyToSteps, h1, h2]
      rw [hval]
      have hids : idsOfVal (PyVal.list
          (PyVal.dict [("id", PyVal.str sub.id), ("op", PyVal.str sub.op),
            ("args", sub.args), ("result", optStr sub.result),
            ("type", optStr sub.result_type)] :: tail)) =
          (sub.id :: idsOfVal sub.args) ++ idsOfVal (PyVal.list tail) := by
        simp [idsOfVal, idsOfList, idsOfKvs, idsOfVal_optStr]
      have hsub : IdSpec (sub.id :: idsOfVal sub.args) (c + 1) c2 := by
        have := hs.2
        simpa [idsOfOpt, idsOfStep] using this
      constructor
      · omega
      · rw [hids]
        exact idSpec_append hsub hrest.2 (by omega) (by omega) (by omega)
    | none =>
      have hval : bodyToSteps (s :: rest) c = (tail, c3) := by
        simp [bodyToSteps, h1, h2]
      rw [hval]
      exact ⟨by omega, idSpec_mono hrest.2 (by omega) (by omega)⟩

end

theorem lowerSteps_spec (stmts : List Stmt) : ∀ idx : Nat,
    idx ≤ (lowerSteps stmts idx).2 ∧
      IdSpec (topIds (lowerSteps stmts idx).1) (idx + 1)
        (lowerSteps stmts idx).2 := by
  induction stmts with
  | nil => exact fun idx => ⟨Nat.le_refl idx, idSpec_nil (idx + 1) idx⟩
  | cons s rest ih =>
    intro idx
    have hs := stmtToStep_spec s (idx + 1)
    rcases h1 : stmtToStep s (idx + 1) (idx + 1) with ⟨step?, idx2⟩
    rw [h1] at hs
    have hrest := ih idx2
    rcases h2 : lowerSteps rest idx2 with ⟨tail, idx3⟩
    rw [h2] at hrest
    cases step? with
    | some step =>
      have hval : lowerSteps (s :: rest) idx = (step :: tail, idx3) := by
        simp [lowerSteps, h1, h2]
      rw [hval]
      have htop : topIds (step :: tail) = idsOfStep step ++ topIds tail := rfl
      have hstep : IdSpec (idsOfStep step) (idx + 1) idx2 := by
        have := hs.2
        simpa [idsOfOpt] using this
      constructor
      · omega
      · rw [htop]
        exact idSpec_append hstep hrest.2 (by omega) (by omega) (by omega)
    | none =>
      have hval : lowerSteps (s :: rest) idx = (tail, idx3) := by
        simp [lowerSteps, h1, h2]
      rw [hval]
      exact ⟨by omega, idSpec_mono hrest.2 (by omega) (by omega)⟩

/-- C9: lowering assigns pairwise distinct step ids across the whole IR
program, the steps nested inside control.for_each bodies included, because
the id counter is shared between the top level and nested numbering. -/
theorem C9_step_ids_nodup (p : Program) : (irIds (lower p)).Nodup := by
  obtain ⟨-, ns, hids, hpw, -⟩ := lowerSteps_spec p.statements 0
  have hirids : irIds (lower p) = topIds (lowerSteps p.statements 0).1 := rfl
  rw [hirids, hids]
  exact List.Pairwise.map _
    (fun a b hlt heq => absurd (stepId_inj heq) (Nat.ne_of_lt hlt)) hpw

theorem processStep_unknown_op (tools : String → Option Handler)
    (bad : IRStep) (env : List (String × PyVal)) (acc : List PyVal)
    (hop : tools bad.op = Option.none) (hfe : bad.op ≠ "control.for_each") :
    processStep tools bad env acc false =
      Except.error (RtErr.runtimeError ("Unknown operation: " ++ bad.op)) := by
  simp [processStep, hfe, hop]

theorem runSteps_append_error (tools : String → Option Handler)
    (bad : IRStep) (rest : List IRStep)
    (hop : tools bad.op = Option.none) (hfe : bad.op ≠ "control.for_each") :
    ∀ (pre : List IRStep) (env : List (String × PyVal)) (acc : List PyVal)
      (env2 : List (String × PyVal)) (acc2 : List PyVal),
      runSteps tools pre env acc false = Except.ok (env2, acc2) →
      runSteps tools (pre ++ bad :: rest) env acc false =
        Except.error (RtErr.runtimeError ("Unknown operation: " ++ bad.op)) := by
  intro pre
  induction pre with
  | nil =>
    intro env acc env2 acc2 _
    simp [runSteps, processStep_unknown_op tools bad env acc hop hfe]
  | cons s pre ih =>
    intro env acc env2 acc2 h
    cases hps : processStep tools s env acc false with
    | error e => simp [runSteps, hps] at h
    | ok st =>
      rcases st with ⟨env1, acc1⟩
      simp only [runSteps, hps] at h
      simp only [List.cons_append, runSteps, hps]
      exact ih env1 acc1 env2 acc2 h

theorem processStep_dry (tools : String → Option Handler) (s : IRStep)
    (env : List (String × PyVal)) (acc : List PyVal) :
    ∃ entry, processStep tools s env acc true =
      Except.ok (env, acc ++ [entry]) := by
  unfold processStep
  by_cases hfe : s.op = "control.for_each"
  · rw [if_pos hfe]
    exact ⟨_, rfl⟩
  · rw [if_neg hfe]
    exact ⟨_, rfl⟩

theorem runSteps_dry_ok (tools : String → Option Handler)
    (steps : List IRStep) :
    ∀ (env : List (String × PyVal)) (acc : List PyVal),
      ∃ acc2, runSteps tools steps env acc true = Except.ok (env, acc2) ∧
        acc2.length = acc.length + steps.length := by
  induction steps with
  | nil => exact fun env acc => ⟨acc, rfl, by simp⟩
  | cons s rest ih =>
    intro env acc
    obtain ⟨entry, he⟩ := processStep_dry tools s env acc
    obtain ⟨acc2, h1, h2⟩ := ih env (acc ++ [entry])
    refine ⟨acc2, ?_, ?_⟩
    · simp [runSteps, he, h1]
    · have h3 : (acc ++ [entry]).length = acc.length + 1 := by simp
      simp only [List.length_cons]
      omega

theorem processStep_wet_length (tools : String → Option Handler) (s : IRStep)
    (env env1 : List (String × PyVal)) (acc acc1 : List PyVal)
    (hfe : s.op ≠ "control.for_each")
    (h : processStep tools s env acc false = Except.ok (env1, acc1)) :
    acc1.length = acc.length + 1 := by
  unfold processStep at h
  rw [if_neg hfe] at h
  cases htool : tools s.op with
  | none => rw [htool] at h; simp at h
  | some fn =>
    rw [htool] at h
    simp at h
    rw [← h.2]
    simp

theorem runSteps_wet_length (tools : String → Option Handler)
    (steps : List IRStep)
    (hnofe : ∀ s ∈ steps, s.op ≠ "control.for_each") :
    ∀ (env env2 : List (String × PyVal)) (acc acc2 : List PyVal),
      runSteps tools steps env acc false = Except.ok (env2, acc2) →
      acc2.length = acc.length + steps.length := by
  induction steps with
  | nil =>
    intro env env2 acc acc2 h
    simp only [runSteps, Except.ok.injEq, Prod.mk.injEq] at h
    simp [← h.2]
  | cons s rest ih =>
    intro env env2 acc acc2 h
    have hfe := hnofe s (List.mem_cons_self s rest)
    cases hps : processStep tools s env acc false with
    | error e => simp [runSteps, hps] at h
    | ok st =>
      rcases st with ⟨env1, acc1⟩
      simp only [runSteps, hps] at h
      have h1 := processStep_wet_length tools s env env1 acc acc1 hfe hps
      have h2 := ih (fun x hx => hnofe x (List.mem_cons_of_mem s hx))
        env1 env2 acc1 acc2 h
      simp [List.length_cons]
      omega

/-- C5 counterexample: on an IR whose second step bears the op table.sort,
absent from the registry, run propagates a RuntimeError; it does not return
the one-entry trace accumulated for the first step, as the claim states. -/
theorem C5_run_error_not_partial_trace :
    run stubHandler stubHandler stubHandler c5ir false =
      Except.error (RtErr.runtimeError "Unknown operation: table.sort") := rfl

/-- C5 amended: when the first k-1 steps execute and the k-th step carries
an op that is absent from the tool registry (and is not the inline
control.for_each), run raises the unknown-operation RuntimeError; the
locally accumulated trace is discarded rather than returned. -/
theorem C5_run_raises_on_unknown_op (eO eR eE : Handler)
    (pre : List IRStep) (bad : IRStep) (rest : List IRStep)
    (v : String) (ep : PyVal) (perms : List String)
    (env2 : List (String × PyVal)) (acc2 : List PyVal)
    (hpre : runSteps (TOOLS eO eR eE) pre [] [] false = Except.ok (env2, acc2))
    (hop : TOOLS eO eR eE bad.op = Option.none)
    (hfe : bad.op ≠ "control.for_each") :
    run eO eR eE (IRProgram.mk v (pre ++ bad :: rest) ep perms) false =
      Except.error (RtErr.runtimeError ("Unknown operation: " ++ bad.op)) := by
  have h := runSteps_append_error (TOOLS eO eR eE) bad rest hop hfe
    pre [] [] env2 acc2 hpre
  simp [run, h]

/-- C5 witness: the amended statement applied to the concrete IR whose
second step is table.sort, with each hypothesis discharged by evaluation. -/
theorem C5_run_raises_on_unknown_op_witness :
    TOOLS stubHandler stubHandler stubHandler "table.sort" = Option.none ∧
      run stubHandler stubHandler stubHandler c5ir false =
        Except.error (RtErr.runtimeError "Unknown operation: table.sort") :=
  ⟨rfl, C5_run_raises_on_unknown_op stubHandler stubHandler stubHandler
    [IRStep.mk "step_001" "set_var"
      (PyVal.dict [("name", PyVal.str "T"), ("value", c3table)])
      (Option.some "T") Option.none]
    (IRStep.mk "step_002" "table.sort"
      (PyVal.dict [("table", PyVal.str "T"), ("by", PyVal.str "Balance"),
        ("ascending", PyVal.bool true)])
      (Option.some "T") (Option.some "table"))
    [] "0.1.0" (PyVal.dict [("default", PyVal.str "stop")]) [] _ _
    rfl rfl (by decide)⟩

/-- C6 counterexample: on an IR holding one control.for_each step over a
two-element collection with a one-step body, the dry run logs one entry
while the non-dry run logs two, so the trace lengths differ. -/
theorem C6_dry_wet_counts_differ :
    (run stubHandler stubHandler stubHandler c6ir true).map List.length =
        Except.ok 1 ∧
      (run stubHandler stubHandler stubHandler c6ir false).map List.length =
        Except.ok 2 :=
  ⟨rfl, rfl⟩

/-- C6 amended: for IR programs containing no control.for_each step, a
successful non-dry run and the dry run produce traces of equal length (the
claimed equality fails on for-each programs, see the counterexample). -/
theorem C6_dry_wet_counts_equal_without_for_each (eO eR eE : Handler)
    (ir : IRProgram)
    (hnofe : ∀ s ∈ ir.steps, s.op ≠ "control.for_each")
    (tr : List PyVal)
    (hwet : run eO eR eE ir false = Except.ok tr) :
    ∃ dtr, run eO eR eE ir true = Except.ok dtr ∧ dtr.length = tr.length := by
  obtain ⟨dacc, hd, hdlen⟩ := runSteps_dry_ok (TOOLS eO eR eE) ir.steps [] []
  cases hw : runSteps (TOOLS eO eR eE) ir.steps [] [] false with
  | error e => simp [run, hw] at hwet
  | ok st =>
    rcases st with ⟨env2, acc2⟩
    have hacc : acc2 = tr := by
      simp only [run, hw] at hwet
      exact (Except.ok.injEq _ _).mp hwet
    have hwlen := runSteps_wet_length (TOOLS eO eR eE) ir.steps hnofe
      [] env2 [] acc2 hw
    refine ⟨dacc, by simp [run, hd], ?_⟩
    rw [← hacc]
    simp at hdlen hwlen
    omega

/-- C6 witness: the amended statement applied to a concrete loop-free IR,
with the hypotheses discharged by evaluation. -/
theorem C6_dry_wet_counts_equal_without_for_each_witness :
    ∃ dtr, run stubHandler stubHandler stubHandler c6wir true =
        Except.ok dtr ∧ dtr.length = 1 :=
  C6_dry_wet_counts_equal_without_for_each stubHandler stubHandler stubHandler
    c6wir
    (by intro s hs; simp only [c6wir, List.mem_singleton] at hs; subst hs; decide)
    [PyVal.dict [("id", PyVal.str "step_001"), ("op", PyVal.str "call_result"),
      ("args", PyVal.dict [("name", PyVal.str "x")]), ("result", PyVal.none)]]
    rfl

/-- C1: bug in the code.  The tokenize loop consumes all leading blanks
before its indentation branch tests whether the current character is a
blank at column zero, so that branch never fires: on a For-each program
whose body line is indented four columns under the colon line (four exceeds
the stack top of zero, so the claim demands an INDENT push and a matching
DEDENT), the produced token stream holds no INDENT and no DEDENT token at
all. -/
theorem C1_tokenize_no_indent_dedent :
    (tokenize c1src).map (fun ts =>
        (ts.countP (fun t => decide (t.kind = TokKind.indent)),
         ts.countP (fun t => decide (t.kind = TokKind.dedent)))) =
      Except.ok (0, 0) := rfl

/-- C2: bug in the code.  _expr_to_arg has no branch for Comparison (nor
BinaryExpr), so lowering the condition of a Filter sentence produces the
unknown marker instead of the claimed comparison node; the table.filter
step lowered from Filter T where T.Balance > 0 carries condition
type unknown. -/
theorem C2_comparison_lowers_to_unknown :
    exprToArg (Expr.comparison (Expr.qualifiedRef "T" "Balance") CompOp.gt
        (Expr.numberLit (NumVal.int 0))) =
      PyVal.dict [("type", PyVal.str "unknown")] ∧
    (stmtToStep (Stmt.filterTable "T"
        (Expr.comparison (Expr.qualifiedRef "T" "Balance") CompOp.gt
          (Expr.numberLit (NumVal.int 0)))) 1 1).1 =
      Option.some (IRStep.mk "step_001" "table.filter"
        (PyVal.dict [("table", PyVal.str "T"),
          ("condition", PyVal.dict [("type", PyVal.str "unknown")])])
        (Option.some "T") (Option.some "table")) :=
  ⟨rfl, rfl⟩

/-- C3: bug in the code.  The registry maps table.filter to a stub lambda
that returns None, not to the table_filter implementation, so executing a
table.filter step over a bound non-empty table rebinds the step result name
to None: the recorded results of the two steps are the table and then None,
and the registry handler applied to the filter arguments is None. -/
theorem C3_filter_stub_returns_none :
    (run stubHandler stubHandler stubHandler c3ir false).map
        (fun tr => tr.map (fun e => (e.get "result").getD PyVal.none)) =
      Except.ok [c3table, PyVal.none] ∧
    (TOOLS stubHandler stubHandler stubHandler "table.filter").map
        (fun f => f (PyVal.dict [("table", c3table), ("condition", c3cond)])) =
      Option.some PyVal.none :=
  ⟨rfl, rfl⟩

/-- C4: bug in the code.  The ensure_declared closure reads the top-level
symbols dictionary rather than the scope handed to check_expr, so a custom
loop variable used as the base of a qualified reference inside the loop
body is reported undeclared: the checker rejects the program
[treat range as table T; For each item in T: Set v to item.Amount]. -/
theorem C4_custom_loop_var_rejected :
    check c4prog = Except.error (TCErr.typeCheckError (pyReprStr "item" ++
      " is not defined. Use a table or variable that was declared earlier.")) :=
  rfl

/-- C8: bug in the code.  parse_statement has no branch for a Sort
sentence, so the token sequence of the claimed grammar row produces the
unexpected-token ParseError instead of a SortTable statement, both when
Sort lexes as an identifier (the shipped fallback keyword set) and when
Sort, by and ascending are keyword tokens. -/
theorem C8_sort_sentence_parse_error :
    tokenize c8src = Except.ok c8toksIdent ∧
    parseStatement c8toksIdent 100 0 = Except.error (LexErr.parseError
      ("Unexpected token: IDENT " ++ pyReprStr "Sort" ++
        ". Expected a statement.") 1 4) ∧
    parseStatement c8toksKw 100 0 = Except.error (LexErr.parseError
      ("Unexpected token: KEYWORD " ++ pyReprStr "Sort" ++
        ". Expected a statement.") 1 4) :=
  ⟨rfl, rfl, rfl⟩

/-- C10: on the one-character source made of a single dash, the comment
test of tokenize passes the truthiness check on peek (the dash itself) and
then reads the character one past the end with no bounds check, so the run
ends in the out-of-range index error rather than a ParseError. -/
theorem C10_trailing_dash_index_error :
    tokenize "-" = Except.error LexErr.indexError := rfl
